import Mathlib

/-!
# Verification of the pppoe-rs wire-format codec

A shallow embedding of the PPPoE discovery-packet codec (`src/header.rs`,
`src/tags/tag.rs`, `src/tags/tr101.rs`): byte buffers are `List Nat`
(each element a byte value), mutable-slice writes become functional list
updates, and the library's iterator loops become fuel-indexed recursions
(the fuel is always instantiated to `length + 1`, which is strictly more
than any loop can consume since every iteration removes at least one byte).
Machine-integer casts (`as u16`, `as u8`) are modelled with explicit `% 2^16`
/ `% 2^8`.

Definitions are transcribed from the Rust source; theorems settle the frozen
claims about the specification.
-/

namespace Pppoe

/-- Big-endian 16-bit read at offset `i` (`byteorder::NetworkEndian::read_u16`).
Out-of-range reads default to 0; every use site is bounds-checked first,
mirroring the panic-freedom of the checked Rust code paths. -/
def readU16 (b : List Nat) (i : Nat) : Nat :=
  256 * b.getD i 0 + b.getD (i + 1) 0

/-- Big-endian 32-bit read at offset 0 (`NetworkEndian::read_u32`). -/
def readU32 (b : List Nat) : Nat :=
  16777216 * b.getD 0 0 + 65536 * b.getD 1 0 + 256 * b.getD 2 0 + b.getD 3 0

/-- The two bytes `NetworkEndian::write_u16` stores for the u16 value
`v % 2^16`. -/
def writeU16bytes (v : Nat) : List Nat :=
  [v / 256 % 256, v % 256]

/-- The four bytes `NetworkEndian::write_u32` stores for the u32 value
`v % 2^32`. -/
def writeU32bytes (v : Nat) : List Nat :=
  [v / 16777216 % 256, v / 65536 % 256, v / 256 % 256, v % 256]

/-- The Rust slice `&b[i..j]`. -/
def slice (b : List Nat) (i j : Nat) : List Nat :=
  (b.drop i).take (j - i)

/-- `error::ParseError` (all features enabled), field for field. -/
inductive ParseError where
  | BufferTooSmall (n : Nat)
  | BufferTooSmallForTag (available : Nat) (requested : Nat)
  | InvalidPppoeVersion (v : Nat)
  | InvalidPppoeType (t : Nat)
  | InvalidPppoeCode (c : Nat)
  | UnexpectedCode (c : Nat)
  | PayloadLengthOutOfBound (actual_packet_length : Nat) (payload_length : Nat)
  | TagLengthOutOfBound (expected_tag_length : Nat) (remaining_payload_length : Nat)
  | IncompleteTagAtPacketEnd (total_packet_length : Nat) (left_over_bytes : Nat)
  | DataBehindEolTag
  | IncompleteTag (len : Nat)
  | TagWithInvalidLength (tag_type : Nat) (length : Nat)
  | InvalidTr101TagLength (tag_type : Nat) (expected_min_length : Nat)
      (expected_max_length : Nat) (actual_length : Nat)
  | Tr101LengthOutOfBound (remaining_packet_length : Nat) (requested_tag_length : Nat)
  | InvalidTr101Id (v : Nat)
  | TagIsNotVendorSpecific
  | InvalidTr101VendorId (v : Nat)
  | DuplicateTag (t : Nat)
  | MissingServiceName
  | MissingAcName
  | ServiceNameMismatch
  | AcNameMismatch
  deriving DecidableEq, Repr

instance {ε α : Type _} [DecidableEq ε] [DecidableEq α] : DecidableEq (Except ε α) := fun a b =>
  match a, b with
  | .ok x, .ok y =>
      if h : x = y then .isTrue (congrArg _ h) else .isFalse fun c => h (Except.ok.inj c)
  | .error x, .error y =>
      if h : x = y then .isTrue (congrArg _ h) else .isFalse fun c => h (Except.error.inj c)
  | .ok _, .error _ => .isFalse fun c => Except.noConfusion c
  | .error _, .ok _ => .isFalse fun c => Except.noConfusion c

/-- Tag type constants from `src/tags/tag.rs`. -/
def TAG_END_OF_LIST : Nat := 0x0000
def TAG_SERVICE_NAME : Nat := 0x0101
def TAG_AC_NAME : Nat := 0x0102
def TAG_HOST_UNIQ : Nat := 0x0103
def TAG_AC_COOKIE : Nat := 0x0104
def TAG_VENDOR_SPECIFIC : Nat := 0x0105
def TAG_RELAY_SESSION_ID : Nat := 0x0110
def TAG_SERVICE_NAME_ERROR : Nat := 0x0201
def TAG_AC_SYSTEM_ERROR : Nat := 0x0202
def TAG_GENERIC_ERROR : Nat := 0x0203
def TAG_PPP_MAX_PAYLOAD : Nat := 0x0120
def TAG_CREDITS : Nat := 0x0106
def TAG_METRICS : Nat := 0x0107
def TAG_SEQUENCE_NUMBER : Nat := 0x0108
def TAG_CREDIT_SCALE_FACTOR : Nat := 0x0109

/-- `tag::Tag`: the tagged-union view of a single PPPoE tag. Opaque variants
carry their value bytes; fixed-width numeric variants carry the parsed value. -/
inductive Tag where
  | endOfList
  | serviceName (v : List Nat)
  | acName (v : List Nat)
  | hostUniq (v : List Nat)
  | acCookie (v : List Nat)
  | vendorSpecific (v : List Nat)
  | relaySessionId (v : List Nat)
  | serviceNameError (v : List Nat)
  | acSystemError (v : List Nat)
  | genericError (v : List Nat)
  | pppMaxMtu (mtu : Nat)
  | credits (a b : Nat)
  | metrics (v : List Nat)
  | sequenceNumber (n : Nat)
  | creditScaleFactor (n : Nat)
  | unknown (t : Nat) (v : List Nat)
  deriving DecidableEq, Repr

namespace Tag

/-- The `let tag_enum = match tag { ... }` dispatch inside `Tag::from_buffer`:
classify the tag type, enforcing the per-type length constraints.  `length`
is the *total* on-wire width `value_length + 4`, exactly as the Rust code
computes it. -/
def decode_enum (buffer : List Nat) (tag length : Nat) : Except ParseError Tag :=
  if tag = TAG_END_OF_LIST then
    if length ≠ 4 then
      .error (.TagWithInvalidLength TAG_END_OF_LIST (length % 65536))
    else .ok .endOfList
  else if tag = TAG_SERVICE_NAME then .ok (.serviceName (slice buffer 4 length))
  else if tag = TAG_AC_NAME then .ok (.acName (slice buffer 4 length))
  else if tag = TAG_HOST_UNIQ then .ok (.hostUniq (slice buffer 4 length))
  else if tag = TAG_AC_COOKIE then .ok (.acCookie (slice buffer 4 length))
  else if tag = TAG_VENDOR_SPECIFIC then .ok (.vendorSpecific (slice buffer 4 length))
  else if tag = TAG_RELAY_SESSION_ID then .ok (.relaySessionId (slice buffer 4 length))
  else if tag = TAG_SERVICE_NAME_ERROR then .ok (.serviceNameError (slice buffer 4 length))
  else if tag = TAG_AC_SYSTEM_ERROR then .ok (.acSystemError (slice buffer 4 length))
  else if tag = TAG_GENERIC_ERROR then .ok (.genericError (slice buffer 4 length))
  else if tag = TAG_PPP_MAX_PAYLOAD then
    if length ≠ 6 then
      .error (.TagWithInvalidLength TAG_PPP_MAX_PAYLOAD (length % 65536))
    else .ok (.pppMaxMtu (readU16 buffer 4))
  else if tag = TAG_CREDITS then
    if length ≠ 8 then
      -- the Rust source reports TAG_PPP_MAX_PAYLOAD here (copy-paste in the
      -- original match arm); transcribed as-is
      .error (.TagWithInvalidLength TAG_PPP_MAX_PAYLOAD (length % 65536))
    else .ok (.credits (readU16 buffer 4) (readU16 buffer 6))
  else if tag = TAG_SEQUENCE_NUMBER then
    if length ≠ 6 then
      .error (.TagWithInvalidLength TAG_SEQUENCE_NUMBER (length % 65536))
    else .ok (.sequenceNumber (readU16 buffer 4))
  else if tag = TAG_CREDIT_SCALE_FACTOR then
    if length ≠ 6 then
      .error (.TagWithInvalidLength TAG_CREDIT_SCALE_FACTOR (length % 65536))
    else .ok (.creditScaleFactor (readU16 buffer 4))
  else if tag = TAG_METRICS then .ok (.metrics (slice buffer 4 length))
  else .ok (.unknown tag (slice buffer 4 length))

/-- `Tag::from_buffer`: decode one tag from the front of `buffer`, returning
the tag and the unconsumed rest `buffer[length..]`. -/
def from_buffer (buffer : List Nat) : Except ParseError (Tag × List Nat) :=
  if buffer.length < 4 then
    .error (.IncompleteTag (buffer.length % 256))
  else
    let tag := readU16 buffer 0
    let length := readU16 buffer 2 + 4
    if length > buffer.length then
      .error (.TagLengthOutOfBound (length % 65536) (buffer.length % 65536))
    else
      match decode_enum buffer tag length with
      | .error e => .error e
      | .ok tag_enum => .ok (tag_enum, buffer.drop length)

/-- `Tag::get_tag_type`. -/
def get_tag_type : Tag → Nat
  | .endOfList => TAG_END_OF_LIST
  | .serviceName _ => TAG_SERVICE_NAME
  | .acName _ => TAG_AC_NAME
  | .hostUniq _ => TAG_HOST_UNIQ
  | .acCookie _ => TAG_AC_COOKIE
  | .vendorSpecific _ => TAG_VENDOR_SPECIFIC
  | .relaySessionId _ => TAG_RELAY_SESSION_ID
  | .serviceNameError _ => TAG_SERVICE_NAME_ERROR
  | .acSystemError _ => TAG_AC_SYSTEM_ERROR
  | .genericError _ => TAG_GENERIC_ERROR
  | .pppMaxMtu _ => TAG_PPP_MAX_PAYLOAD
  | .credits _ _ => TAG_CREDITS
  | .metrics _ => TAG_METRICS
  | .sequenceNumber _ => TAG_SEQUENCE_NUMBER
  | .creditScaleFactor _ => TAG_CREDIT_SCALE_FACTOR
  | .unknown t _ => t

/-- `Tag::get_tuple`: `(type, value-bytes)` for the opaque variants;
`none` models the `unimplemented!()` panic on the RFC 5578 variants and
`PppMaxMtu` (the latter never reaches `get_tuple` from `write`). -/
def get_tuple : Tag → Option (Nat × List Nat)
  | .endOfList => some (TAG_END_OF_LIST, [])
  | .serviceName v => some (TAG_SERVICE_NAME, v)
  | .acName v => some (TAG_AC_NAME, v)
  | .hostUniq v => some (TAG_HOST_UNIQ, v)
  | .acCookie v => some (TAG_AC_COOKIE, v)
  | .vendorSpecific v => some (TAG_VENDOR_SPECIFIC, v)
  | .relaySessionId v => some (TAG_RELAY_SESSION_ID, v)
  | .serviceNameError v => some (TAG_SERVICE_NAME_ERROR, v)
  | .acSystemError v => some (TAG_AC_SYSTEM_ERROR, v)
  | .genericError v => some (TAG_GENERIC_ERROR, v)
  | .unknown t v => some (t, v)
  | _ => none

/-- The bytes `Tag::write` stores into the front of the buffer on success
(`none` when `write` would panic in `unimplemented!()`).  `PppMaxMtu`
writes three u16 values; opaque tags write type, value length (`as u16`)
and the value bytes. -/
def encodeTag : Tag → Option (List Nat)
  | .pppMaxMtu mtu =>
      some (writeU16bytes TAG_PPP_MAX_PAYLOAD ++ writeU16bytes 2 ++ writeU16bytes mtu)
  | t =>
      (t.get_tuple).map fun p =>
        writeU16bytes p.1 ++ writeU16bytes p.2.length ++ p.2

/-- `Tag::write`: encode into the front of `buffer`.  The outer `Option` is
`none` on the `unimplemented!()` panic; on success returns the number of
bytes written and the updated buffer contents. -/
def write (t : Tag) (buffer : List Nat) : Option (Except ParseError (Nat × List Nat)) :=
  match t with
  | .pppMaxMtu mtu =>
      if buffer.length < 6 then
        some (.error (.BufferTooSmallForTag (min buffer.length 65535) 6))
      else
        some (.ok (6, writeU16bytes TAG_PPP_MAX_PAYLOAD ++ writeU16bytes 2 ++
          writeU16bytes mtu ++ buffer.drop 6))
  | t =>
      match t.get_tuple with
      | none => none
      | some (tag_id, tag_content) =>
          if buffer.length < tag_content.length + 4 then
            some (.error (.BufferTooSmallForTag (buffer.length % 65536) tag_content.length))
          else
            some (.ok (4 + tag_content.length,
              writeU16bytes tag_id ++ writeU16bytes tag_content.length ++ tag_content ++
                buffer.drop (4 + tag_content.length)))

end Tag

/-- One step of `TagIterator::next` repeated to exhaustion, fuel-indexed.
`none` models the `unwrap()` panic when `Tag::from_buffer` fails inside the
iterator (the fuel, always instantiated to `payload.length + 1`, never runs
out because each step consumes at least 4 bytes). -/
def tagListLoop : Nat → List Nat → Option (List Tag)
  | 0, _ => none
  | fuel + 1, payload =>
    if payload.length = 0 then some []
    else
      match Tag.from_buffer payload with
      | .error _ => none
      | .ok (t, rest) => (tagListLoop fuel rest).map (t :: ·)

/-- The full sequence of tags `TagIterator` yields over `payload`
(`none` if any `next()` call would panic). -/
def tagList (payload : List Nat) : Option (List Tag) :=
  tagListLoop (payload.length + 1) payload

/-- PPPoE code constants (`header.rs`). -/
def PADI : Nat := 0x09
def PADO : Nat := 0x07
def PADR : Nat := 0x19
def PADS : Nat := 0x65
def PADT : Nat := 0xa7

/-- `header::Code`. -/
inductive Code where
  | padi | pado | padr | pads | padt
  deriving DecidableEq, Repr

/-- The `repr(u8)` discriminant of a `Code`. -/
def Code.toNat : Code → Nat
  | .padi => PADI
  | .pado => PADO
  | .padr => PADR
  | .pads => PADS
  | .padt => PADT

/-- `Code::try_from`. -/
def Code.try_from (code : Nat) : Except ParseError Code :=
  if code = PADI then .ok .padi
  else if code = PADO then .ok .pado
  else if code = PADR then .ok .padr
  else if code = PADS then .ok .pads
  else if code = PADT then .ok .padt
  else .error (.InvalidPppoeCode code)

/-- The six at-most-once flags tracked by `Header::validate_tags`. -/
structure DupFlags where
  service_name : Bool
  host_uniq : Bool
  ac_name : Bool
  relay_session_id : Bool
  ppp_max_payload : Bool
  ac_cookie : Bool
  deriving DecidableEq, Repr

def DupFlags.init : DupFlags :=
  ⟨false, false, false, false, false, false⟩

namespace Header

/-- `Header::check_duplicate`: error on a repeat, otherwise record the tag. -/
def check_duplicate (tag : Nat) (ex : Bool) : Except ParseError Bool :=
  if ex then .error (.DuplicateTag tag) else .ok true

/-- The duplicate-tracking `match tag` block of `validate_tags`, updating the
flag set (same arm order as the source). -/
def dupCheck (tag : Nat) (f : DupFlags) : Except ParseError DupFlags :=
  if tag = TAG_SERVICE_NAME then
    (check_duplicate tag f.service_name).map fun b => { f with service_name := b }
  else if tag = TAG_AC_NAME then
    (check_duplicate tag f.ac_name).map fun b => { f with ac_name := b }
  else if tag = TAG_AC_COOKIE then
    (check_duplicate tag f.ac_cookie).map fun b => { f with ac_cookie := b }
  else if tag = TAG_HOST_UNIQ then
    (check_duplicate tag f.host_uniq).map fun b => { f with host_uniq := b }
  else if tag = TAG_RELAY_SESSION_ID then
    (check_duplicate tag f.relay_session_id).map fun b => { f with relay_session_id := b }
  else if tag = TAG_PPP_MAX_PAYLOAD then
    (check_duplicate tag f.ppp_max_payload).map fun b => { f with ppp_max_payload := b }
  else .ok f

/-- The `loop` of `Header::validate_tags`, fuel-indexed (fuel is instantiated
to `payload.length + 1`; each iteration drops at least 4 bytes, so the
`fuel = 0` arm is unreachable).  `total` is `total_packet_length`, captured
as a u16 on entry.  On finding End-Of-List the post-loop checks
(`DataBehindEolTag`, then `MissingServiceName`) run; reaching the end of the
payload without End-Of-List returns success with no Service-Name check,
exactly as the source does. -/
def validateLoop : Nat → List Nat → DupFlags → Nat → Except ParseError Unit
  | 0, _, _, _ => .ok ()
  | fuel + 1, payload, flags, total =>
    if payload.length = 0 then .ok ()
    else if payload.length < 4 then
      .error (.IncompleteTagAtPacketEnd total payload.length)
    else
      match dupCheck (readU16 payload 0) flags with
      | .error e => .error e
      | .ok flags =>
        if readU16 payload 0 = TAG_END_OF_LIST then
          if readU16 payload 2 ≠ 0 ∨ payload.length ≠ 4 then .error .DataBehindEolTag
          else if flags.service_name = false then .error .MissingServiceName
          else .ok ()
        else if readU16 payload 2 + 4 > payload.length then
          .error (.TagLengthOutOfBound (readU16 payload 2) (payload.length % 65536))
        else
          validateLoop fuel (payload.drop (4 + readU16 payload 2)) flags total

/-- `Header::validate_tags`. -/
def validate_tags (payload : List Nat) : Except ParseError Unit :=
  validateLoop (payload.length + 1) payload DupFlags.init (payload.length % 65536)

/-- `Header::len`: `usize::from(6 + NE::read_u16(&self.0[4..]))`.  The
`6 +` is a u16 addition (the literal is inferred as `u16`; the widening to
`usize` happens only afterwards), so the sum wraps modulo 2^16 whenever
the payload-length field is 65530 or more: a release build wraps, a debug
build panics at this site.  The wrap is transcribed here; the panic
surfaces at the use sites (`tag_iter`, `add_tag`), which fail in both
build modes whenever this addition overflows. -/
def len (b : List Nat) : Nat :=
  (6 + readU16 b 4) % 65536

/-- `Header::set_len`: store the (u16-truncated) payload length at bytes 4..6. -/
def set_len (b : List Nat) (new_length : Nat) : List Nat :=
  b.take 4 ++ writeU16bytes new_length ++ b.drop 6

/-- The tail of `Header::from_buffer_with_code` after the code checks:
payload-length bound, the `length == 0` Service-Name check, and
`validate_tags`.  Returns the (unmodified) buffer as the header's view. -/
def from_buffer_tail (buffer : List Nat) : Except ParseError (List Nat) :=
  let length := readU16 buffer 4
  if length + 6 > buffer.length then
    .error (.PayloadLengthOutOfBound (buffer.length % 65536) length)
  else if length = 0 then
    .error .MissingServiceName
  else
    match validate_tags (slice buffer 6 (6 + length)) with
    | .error e => .error e
    | .ok _ => .ok buffer

/-- `Header::from_buffer_with_code`. -/
def from_buffer_with_code (buffer : List Nat) (expected_code : Option Code) :
    Except ParseError (List Nat) :=
  if buffer.length < 6 then .error (.BufferTooSmall buffer.length)
  else if buffer.getD 0 0 ≠ 0x11 then
    if buffer.getD 0 0 / 16 ≠ 1 then .error (.InvalidPppoeVersion (buffer.getD 0 0 / 16))
    else .error (.InvalidPppoeType (buffer.getD 0 0 % 16))
  else
    match Code.try_from (buffer.getD 1 0) with
    | .error e => .error e
    | .ok code =>
      match expected_code with
      | some expected =>
          if code ≠ expected then .error (.UnexpectedCode code.toNat)
          else from_buffer_tail buffer
      | none => from_buffer_tail buffer

/-- `Header::from_buffer`. -/
def from_buffer (buffer : List Nat) : Except ParseError (List Nat) :=
  from_buffer_with_code buffer none

/-- `Header::tag_iter`, run to exhaustion: the tag sequence over
`&self.0[6..self.len()]`.  `none` models a panic: when the u16 addition
inside `self.len()` overflows (a debug build panics right there; a
release build wraps `len()` below 6 and the slice `[6..len]` panics),
when `len()` exceeds the buffer (the slice panics in both modes), or
when the iterator's `unwrap()` of a failing `Tag::from_buffer` panics. -/
def tag_iter (b : List Nat) : Option (List Tag) :=
  if 6 + readU16 b 4 < 65536 ∧ len b ≤ b.length then
    tagList (slice b 6 (len b))
  else none

/-- `Header::create_packet`: write the six header bytes (version/type `0x11`,
code, session id, payload length 0) over the buffer. -/
def create_packet (buffer : List Nat) (code : Code) (session_id : Nat) :
    Except ParseError (List Nat) :=
  if buffer.length < 6 then .error (.BufferTooSmall buffer.length)
  else .ok (0x11 :: code.toNat :: (writeU16bytes session_id ++ [0, 0] ++ buffer.drop 6))

/-- `Header::create_padr`. -/
def create_padr (buffer : List Nat) : Except ParseError (List Nat) :=
  create_packet buffer .padr 0

/-- `Header::add_tag`: encode `tag` after the current payload end
(`&mut self.0[packet_length..]`) and set the length field to
`(packet_length - 6 + tag_length) as u16`.  The outer `Option` marks the
executions that do not complete a well-defined append: a `Tag::write`
panic; the u16 addition inside `self.len()` overflowing (a debug build
panics right there; a release build wraps `len()` below 6, writes the tag
over the header bytes and underflows the usize `packet_length - 6` — a
corrupting execution no theorem below relies on, folded into the panic
marker); or the slice at `packet_length` being out of bounds (a panic in
both modes). -/
def add_tag (b : List Nat) (tag : Tag) : Option (Except ParseError (List Nat)) :=
  if 6 + readU16 b 4 < 65536 ∧ len b ≤ b.length then
    match tag.write (b.drop (len b)) with
    | none => none
    | some (.error e) => some (.error e)
    | some (.ok (tag_length, written)) =>
        some (.ok (set_len (b.take (len b) ++ written) (len b - 6 + tag_length)))
  else none

end Header

end Pppoe


namespace Pppoe

/-! ## Derived definitions used by the theorems -/

/-- The `if let Some(expected) = ... { if name != expected }` test in
`create_padr_from_pado`. -/
def nameMismatch (expected : Option (List Nat)) (actual : List Nat) : Bool :=
  match expected with
  | some e => actual != e
  | none => false

/-- `Header::create_padr_from_pado`'s tag-processing loop (the `for tag in
tag_iterator` body): copy Service-Name / Relay-Session-ID / AC-Cookie into the
PADR under construction, match expected names, remember what was seen.
Structurally recursive over the materialized tag sequence. -/
def padrLoop (expected_service_name expected_ac_name : Option (List Nat)) :
    List Tag → List Nat → Bool → Bool →
    Option (Except ParseError (List Nat × Bool × Bool))
  | [], padr, has_service_name, has_system_name =>
      some (.ok (padr, has_service_name, has_system_name))
  | tag :: rest, padr, has_service_name, has_system_name =>
    match tag with
    | .serviceName service_name =>
        if nameMismatch expected_service_name service_name then
          some (.error .ServiceNameMismatch)
        else
          match Header.add_tag padr (.serviceName service_name) with
          | none => none
          | some (.error e) => some (.error e)
          | some (.ok padr) => padrLoop expected_service_name expected_ac_name rest padr
              true has_system_name
    | .acName system_name =>
        if nameMismatch expected_ac_name system_name then
          some (.error .AcNameMismatch)
        else padrLoop expected_service_name expected_ac_name rest padr
          has_service_name true
    | .relaySessionId v =>
        match Header.add_tag padr (.relaySessionId v) with
        | none => none
        | some (.error e) => some (.error e)
        | some (.ok padr) => padrLoop expected_service_name expected_ac_name rest padr
            has_service_name has_system_name
    | .acCookie v =>
        match Header.add_tag padr (.acCookie v) with
        | none => none
        | some (.error e) => some (.error e)
        | some (.ok padr) => padrLoop expected_service_name expected_ac_name rest padr
            has_service_name has_system_name
    | _ => padrLoop expected_service_name expected_ac_name rest padr
        has_service_name has_system_name

/-- `Header::create_padr_from_pado`.  The outer `Option` is `none` when the
PADO tag iterator's `unwrap()` (or `Tag::write` inside `add_tag`) would
panic. -/
def Header.create_padr_from_pado (buffer pado : List Nat)
    (expected_service_name expected_ac_name : Option (List Nat)) :
    Option (Except ParseError (List Nat)) :=
  match Header.create_padr buffer with
  | .error e => some (.error e)
  | .ok padr =>
    match Header.tag_iter pado with
    | none => none
    | some tags =>
      match padrLoop expected_service_name expected_ac_name tags padr false false with
      | none => none
      | some (.error e) => some (.error e)
      | some (.ok (padr, has_service_name, has_system_name)) =>
          if has_service_name = false then some (.error .MissingServiceName)
          else if has_system_name = false then some (.error .MissingAcName)
          else some (.ok padr)

/-- Adding a list of tags in order with `Header::add_tag`, short-circuiting on
error (and on panic). -/
def addAll (b : List Nat) : List Tag → Option (Except ParseError (List Nat))
  | [] => some (.ok b)
  | t :: ts =>
    match Header.add_tag b t with
    | none => none
    | some (.error e) => some (.error e)
    | some (.ok b2) => addAll b2 ts

/-- `Header::create_packet` followed by `add_tag` for each element of `T`. -/
def buildPacket (buffer : List Nat) (code : Code) (session_id : Nat) (T : List Tag) :
    Option (Except ParseError (List Nat)) :=
  match Header.create_packet buffer code session_id with
  | .error e => some (.error e)
  | .ok b => addAll b T

/-- The value bytes a tag's encoding carries (for `PppMaxMtu` the two
big-endian MTU bytes). Meaningful for the writable variants. -/
def Tag.valueBytes : Tag → List Nat
  | .endOfList => []
  | .serviceName v => v
  | .acName v => v
  | .hostUniq v => v
  | .acCookie v => v
  | .vendorSpecific v => v
  | .relaySessionId v => v
  | .serviceNameError v => v
  | .acSystemError v => v
  | .genericError v => v
  | .pppMaxMtu mtu => writeU16bytes mtu
  | .credits _ _ => []
  | .metrics _ => []
  | .sequenceNumber _ => []
  | .creditScaleFactor _ => []
  | .unknown _ v => v

/-- The full on-wire encoding of a (writable, well-formed) tag:
type, value length, value. -/
def encBytes (t : Tag) : List Nat :=
  writeU16bytes t.get_tag_type ++ writeU16bytes t.valueBytes.length ++ t.valueBytes

/-- Concatenated encodings of a tag sequence: the payload `add_tag` builds. -/
def flatTags : List Tag → List Nat
  | [] => []
  | t :: ts => encBytes t ++ flatTags ts

/-- The tag type codes `Tag::from_buffer` treats specially. -/
def knownTagTypes : List Nat :=
  [TAG_END_OF_LIST, TAG_SERVICE_NAME, TAG_AC_NAME, TAG_HOST_UNIQ, TAG_AC_COOKIE,
   TAG_VENDOR_SPECIFIC, TAG_RELAY_SESSION_ID, TAG_SERVICE_NAME_ERROR,
   TAG_AC_SYSTEM_ERROR, TAG_GENERIC_ERROR, TAG_PPP_MAX_PAYLOAD, TAG_CREDITS,
   TAG_METRICS, TAG_SEQUENCE_NUMBER, TAG_CREDIT_SCALE_FACTOR]

/-- Well-formedness of a tag value: it is one of the variants `Tag::write` can
emit, its numeric payload / value length fits the 16-bit length field, and an
`Unknown` tag does not masquerade as a known type code.  These are exactly the
tags for which encoding is faithful and re-parseable. -/
def Tag.wf : Tag → Prop
  | .endOfList => True
  | .serviceName v => v.length < 65536
  | .acName v => v.length < 65536
  | .hostUniq v => v.length < 65536
  | .acCookie v => v.length < 65536
  | .vendorSpecific v => v.length < 65536
  | .relaySessionId v => v.length < 65536
  | .serviceNameError v => v.length < 65536
  | .acSystemError v => v.length < 65536
  | .genericError v => v.length < 65536
  | .pppMaxMtu mtu => mtu < 65536
  | .credits _ _ => False
  | .metrics _ => False
  | .sequenceNumber _ => False
  | .creditScaleFactor _ => False
  | .unknown t v => t ∉ knownTagTypes ∧ t < 65536 ∧ v.length < 65536

instance : (t : Tag) → Decidable t.wf
  | .endOfList => inferInstanceAs (Decidable True)
  | .serviceName v => inferInstanceAs (Decidable (v.length < 65536))
  | .acName v => inferInstanceAs (Decidable (v.length < 65536))
  | .hostUniq v => inferInstanceAs (Decidable (v.length < 65536))
  | .acCookie v => inferInstanceAs (Decidable (v.length < 65536))
  | .vendorSpecific v => inferInstanceAs (Decidable (v.length < 65536))
  | .relaySessionId v => inferInstanceAs (Decidable (v.length < 65536))
  | .serviceNameError v => inferInstanceAs (Decidable (v.length < 65536))
  | .acSystemError v => inferInstanceAs (Decidable (v.length < 65536))
  | .genericError v => inferInstanceAs (Decidable (v.length < 65536))
  | .pppMaxMtu mtu => inferInstanceAs (Decidable (mtu < 65536))
  | .credits _ _ => inferInstanceAs (Decidable False)
  | .metrics _ => inferInstanceAs (Decidable False)
  | .sequenceNumber _ => inferInstanceAs (Decidable False)
  | .creditScaleFactor _ => inferInstanceAs (Decidable False)
  | .unknown t v =>
      inferInstanceAs (Decidable (t ∉ knownTagTypes ∧ t < 65536 ∧ v.length < 65536))

/-- The at-most-once tag types tracked by `validate_tags`. -/
def dupTagTypes : List Nat :=
  [TAG_SERVICE_NAME, TAG_AC_NAME, TAG_AC_COOKIE, TAG_HOST_UNIQ,
   TAG_RELAY_SESSION_ID, TAG_PPP_MAX_PAYLOAD]

/-- The flag `validate_tags` keeps for an at-most-once type (false for other
types). -/
def flagFor (f : DupFlags) (τ : Nat) : Bool :=
  if τ = TAG_SERVICE_NAME then f.service_name
  else if τ = TAG_AC_NAME then f.ac_name
  else if τ = TAG_AC_COOKIE then f.ac_cookie
  else if τ = TAG_HOST_UNIQ then f.host_uniq
  else if τ = TAG_RELAY_SESSION_ID then f.relay_session_id
  else if τ = TAG_PPP_MAX_PAYLOAD then f.ppp_max_payload
  else false

/-- Number of tags of on-wire type `τ` in a tag sequence. -/
def countTagType (τ : Nat) (T : List Tag) : Nat :=
  T.countP fun t => decide (t.get_tag_type = τ)

/-- Whether a tag is a Service-Name tag. -/
def isServiceName : Tag → Bool
  | .serviceName _ => true
  | _ => false

/-- Whether a tag is an AC-Name tag. -/
def isAcName : Tag → Bool
  | .acName _ => true
  | _ => false

/-- The tags `create_padr_from_pado` copies into the PADR. -/
def keepForPadr : Tag → Bool
  | .serviceName _ => true
  | .relaySessionId _ => true
  | .acCookie _ => true
  | _ => false

/-! ## Duplicate-flag bookkeeping -/

/-- The flag update `dupCheck` performs on success. -/
def setFlag (f : DupFlags) (τ : Nat) : DupFlags :=
  if τ = TAG_SERVICE_NAME then { f with service_name := true }
  else if τ = TAG_AC_NAME then { f with ac_name := true }
  else if τ = TAG_AC_COOKIE then { f with ac_cookie := true }
  else if τ = TAG_HOST_UNIQ then { f with host_uniq := true }
  else if τ = TAG_RELAY_SESSION_ID then { f with relay_session_id := true }
  else if τ = TAG_PPP_MAX_PAYLOAD then { f with ppp_max_payload := true }
  else f

/-! ## Builder-state shape -/

/-- The shape of a buffer after `create_packet` and a run of successful
`add_tag`s: six header bytes (payload length = `p.length`), the payload `p`,
and the untouched tail. -/
def hdrBuf (code : Code) (session_id : Nat) (p tail : List Nat) : List Nat :=
  0x11 :: code.toNat ::
    (writeU16bytes session_id ++ (writeU16bytes p.length ++ (p ++ tail)))

/-- 65540-byte buffer: valid PADI header bytes, payload-length field
`0xFFFF`, zero payload. -/
def cbuf6 : List Nat := 0x11 :: 0x09 :: 0 :: 0 :: 255 :: 255 :: List.replicate 65534 0

/-- 65542-byte buffer: length field 65529 (`len() = 65535`), so the next
`add_tag` of a 7-byte tag truncates the updated length field
(`65535 - 6 + 7 = 65536` is computed in usize without overflow and stored
`as u16`, i.e. as 0). -/
def cbuf8 : List Nat := 0 :: 0 :: 0 :: 0 :: 255 :: 249 :: List.replicate 65536 0

/-! ## TR-101 vendor-specific information (`src/tags/tr101.rs`) -/

/-- TR-101 constants from `src/tags/tr101.rs`. -/
def BROADBAND_FORUM_VENDOR_ID : Nat := 0x0DE9

def AGENT_CIRCUIT_ID : Nat := 0x01

def AGENT_REMOTE_ID : Nat := 0x02

def ACTUAL_DATA_RATE_UP : Nat := 0x81

def ACTUAL_DATA_RATE_DOWN : Nat := 0x82

def MINIMUM_DATA_RATE_UP : Nat := 0x83

def MINIMUM_DATA_RATE_DOWN : Nat := 0x84

def ATTAINABLE_DATA_RATE_UP : Nat := 0x85

def ATTAINABLE_DATA_RATE_DOWN : Nat := 0x86

def MAXIMUM_DATA_RATE_UP : Nat := 0x87

def MAXIMUM_DATA_RATE_DOWN : Nat := 0x88

def MINIMUM_DATA_RATE_UP_LOW_POWER : Nat := 0x89

def MINIMUM_DATA_RATE_DOWN_LOW_POWER : Nat := 0x8A

def MAXIMUM_INTERLEAVING_DELAY_UP : Nat := 0x8B

def ACTUAL_INTERLEAVING_DELAY_UP : Nat := 0x8C

def MAXIMUM_INTERLEAVING_DELAY_DOWN : Nat := 0x8D

def ACTUAL_INTERLEAVING_DELAY_DOWN : Nat := 0x8E

/-- `AccessLoopEncapsulation` (all fields u8). -/
structure AccessLoopEncapsulation where
  data_link : Nat
  encaps1 : Nat
  encaps2 : Nat
  deriving DecidableEq, Repr

/-- `Default for AccessLoopEncapsulation`. -/
def AccessLoopEncapsulation.default : AccessLoopEncapsulation :=
  { data_link := 0, encaps1 := 0, encaps2 := 0 }

/-- `Tr101Information`: `circuit_id`/`remote_id` are the source's
`(u8, [u8; 64])` pairs (length byte plus fixed 64-byte storage); the
rate/delay fields are u32. -/
structure Tr101Information where
  circuit_id : Nat × List Nat
  remote_id : Nat × List Nat
  act_data_rate_up : Nat
  act_data_rate_down : Nat
  min_data_rate_up : Nat
  min_data_rate_down : Nat
  att_data_rate_up : Nat
  att_data_rate_down : Nat
  max_data_rate_up : Nat
  max_data_rate_down : Nat
  min_data_rate_up_lp : Nat
  min_data_rate_down_lp : Nat
  max_interl_delay_up : Nat
  act_interl_delay_up : Nat
  max_interl_delay_down : Nat
  act_interl_delay_down : Nat
  dsl_type : Nat
  access_loop_encapsulation : AccessLoopEncapsulation
  deriving DecidableEq, Repr

/-- `Default for Tr101Information`. -/
def Tr101Information.default : Tr101Information :=
  { circuit_id := (0, List.replicate 64 0),
    remote_id := (0, List.replicate 64 0),
    act_data_rate_up := 0,
    act_data_rate_down := 0,
    min_data_rate_up := 0,
    min_data_rate_down := 0,
    att_data_rate_up := 0,
    att_data_rate_down := 0,
    max_data_rate_up := 0,
    max_data_rate_down := 0,
    min_data_rate_up_lp := 0,
    min_data_rate_down_lp := 0,
    max_interl_delay_up := 0,
    act_interl_delay_up := 0,
    max_interl_delay_down := 0,
    act_interl_delay_down := 0,
    dsl_type := 0,
    access_loop_encapsulation := AccessLoopEncapsulation.default }

/-- `Tr101Information::set_remote_id` (functional: returns the updated
value).  `u16::try_from(len).unwrap_or(u16::MAX)` is `min len 65535`;
`len as u8` is `len % 256`; the copy into the 64-byte storage keeps the
bytes past `len`. -/
def Tr101Information.set_remote_id (t : Tr101Information) (remote_id : List Nat) :
    Except ParseError Tr101Information :=
  let len := remote_id.length
  if len > 63 then
    .error (.InvalidTr101TagLength AGENT_REMOTE_ID 1 63 (min len 65535))
  else
    .ok { t with remote_id := (len % 256, remote_id ++ t.remote_id.2.drop len) }

/-- `Tr101Information::set_circuit_id`. -/
def Tr101Information.set_circuit_id (t : Tr101Information) (circuit_id : List Nat) :
    Except ParseError Tr101Information :=
  let len := circuit_id.length
  if len > 63 then
    .error (.InvalidTr101TagLength AGENT_CIRCUIT_ID 1 63 (min len 65535))
  else
    .ok { t with circuit_id := (len % 256, circuit_id ++ t.circuit_id.2.drop len) }

/-- `Tr101Information::with_both_ids`: sets the remote id, then the circuit
id, on a default value. -/
def Tr101Information.with_both_ids (circuit_id remote_id : List Nat) :
    Except ParseError Tr101Information := do
  let t ← Tr101Information.default.set_remote_id remote_id
  t.set_circuit_id circuit_id

/-- `Tr101Information::circuit_id` accessor.  Faithful to the source,
which returns `&self.circuit_id.1[len..]` (the storage AFTER the first
`len` bytes) rather than `[..len]`. -/
def Tr101Information.circuit_id_str (t : Tr101Information) : List Nat :=
  t.circuit_id.2.drop t.circuit_id.1

/-- `Tr101Information::remote_id` accessor (same `[len..]` slice as the
source). -/
def Tr101Information.remote_id_str (t : Tr101Information) : List Nat :=
  t.remote_id.2.drop t.remote_id.1

/-- `Tr101Information::len` (`BUFFER_MIN_SIZE = 104`). -/
def Tr101Information.len (t : Tr101Information) : Nat :=
  104 + t.circuit_id.1 + t.remote_id.1

/-- `Tr101Information::write` (`tr101.rs` lines 130-203): after the
buffer-size check, the bytes stored are the vendor id, the circuit-id TLV
(if non-empty), the remote-id TLV (if non-empty), the
access-loop-encapsulation TLV `0x90`, and fourteen 6-byte rate/delay TLVs
in source order; the rest of the caller buffer is untouched.  Returns
`required_size` and the resulting buffer. -/
def Tr101Information.write (t : Tr101Information) (buffer : List Nat) :
    Except ParseError (Nat × List Nat) :=
  let cid_len := t.circuit_id.1
  let rid_len := t.remote_id.1
  let required_size := t.len
  if buffer.length < required_size then
    .error (.BufferTooSmall required_size)
  else
    let written :=
      writeU32bytes BROADBAND_FORUM_VENDOR_ID ++
      (if cid_len ≠ 0 then
        AGENT_CIRCUIT_ID :: cid_len % 256 :: t.circuit_id.2.take cid_len
      else []) ++
      (if rid_len ≠ 0 then
        AGENT_REMOTE_ID :: rid_len % 256 :: t.remote_id.2.take rid_len
      else []) ++
      (0x90 :: 3 :: t.access_loop_encapsulation.data_link ::
        t.access_loop_encapsulation.encaps1 ::
        [t.access_loop_encapsulation.encaps2]) ++
      (ACTUAL_DATA_RATE_UP :: 4 :: writeU32bytes t.act_data_rate_up) ++
      (ACTUAL_DATA_RATE_DOWN :: 4 :: writeU32bytes t.act_data_rate_down) ++
      (MINIMUM_DATA_RATE_UP :: 4 :: writeU32bytes t.min_data_rate_up) ++
      (MINIMUM_DATA_RATE_DOWN :: 4 :: writeU32bytes t.min_data_rate_down) ++
      (ATTAINABLE_DATA_RATE_UP :: 4 :: writeU32bytes t.att_data_rate_up) ++
      (ATTAINABLE_DATA_RATE_DOWN :: 4 :: writeU32bytes t.att_data_rate_down) ++
      (MAXIMUM_DATA_RATE_UP :: 4 :: writeU32bytes t.max_data_rate_up) ++
      (MAXIMUM_DATA_RATE_DOWN :: 4 :: writeU32bytes t.max_data_rate_down) ++
      (MINIMUM_DATA_RATE_UP_LOW_POWER :: 4 :: writeU32bytes t.min_data_rate_up_lp) ++
      (MINIMUM_DATA_RATE_DOWN_LOW_POWER :: 4 :: writeU32bytes t.min_data_rate_down_lp) ++
      (MAXIMUM_INTERLEAVING_DELAY_UP :: 4 :: writeU32bytes t.max_interl_delay_up) ++
      (ACTUAL_INTERLEAVING_DELAY_UP :: 4 :: writeU32bytes t.act_interl_delay_up) ++
      (MAXIMUM_INTERLEAVING_DELAY_DOWN :: 4 :: writeU32bytes t.max_interl_delay_down) ++
      (ACTUAL_INTERLEAVING_DELAY_DOWN :: 4 :: writeU32bytes t.act_interl_delay_down)
    .ok (required_size, written ++ buffer.drop written.length)

/-- `Tr101Tag` (the access-loop-encapsulation constructor is shortened to
`AccessLoopEncaps` to avoid shadowing the structure name). -/
inductive Tr101Tag where
  | CircuitId (cid : List Nat)
  | RemoteId (rid : List Nat)
  | ActDataRateUp (rate : Nat)
  | ActDataRateDown (rate : Nat)
  | MinDataRateUp (rate : Nat)
  | MinDataRateDown (rate : Nat)
  | AttDataRateUp (rate : Nat)
  | AttDataRateDown (rate : Nat)
  | MaxDataRateUp (rate : Nat)
  | MaxDataRateDown (rate : Nat)
  | MinDataRateUpLp (rate : Nat)
  | MinDataRateDownLp (rate : Nat)
  | MaxInterlDelayUp (rate : Nat)
  | ActInterlDelayUp (rate : Nat)
  | MaxInterlDelayDown (rate : Nat)
  | ActInterlDelayDown (rate : Nat)
  | DslType (v : Nat)
  | AccessLoopEncaps (ale : AccessLoopEncapsulation)
  | Unknown (t : Nat) (v : List Nat)
  deriving DecidableEq, Repr

/-- `Tr101TagIterator::next` (`tr101.rs` lines 374-503).  `none` = the
source panics (indexing `self.buffer[1]` when exactly one byte remains);
`some none` = iteration finished; `some (some (item, rest))` yields the
item and the iterator's buffer afterwards.  Faithful to the source,
including: the `Tr101LengthOutOfBound` error reports
`remaining_packet_length = 0` because the source clears `self.buffer`
BEFORE reading its length for the error; and the `read_tag!` dispatch
routes sub-tag types 0x89/0x8A/0x8B/0x8C/0x8D/0x8E to the
`MinDataRateUp`/`MinDataRateDown`/`MaxDataRateUp`/`ActDataRateDown`/
`MaxDataRateUp`/`ActDataRateDown` constructors (the source's copy-paste
misroutings), so the dedicated low-power/interleaving-delay constructors
are never produced from the wire. -/
def tr101Next : List Nat → Option (Option (Except ParseError Tr101Tag × List Nat))
  | [] => some none
  | [_] => none
  | τ :: l :: rest =>
    let b := τ :: l :: rest
    let tag_length := l + 2
    if tag_length > b.length then
      some (some (.error (.Tr101LengthOutOfBound 0 (tag_length % 65536)), []))
    else if τ = AGENT_CIRCUIT_ID then
      if tag_length > 65 then
        some (some (.error (.InvalidTr101TagLength AGENT_CIRCUIT_ID 1 63
          (tag_length % 65536)), b))
      else
        some (some (.ok (.CircuitId (slice b 2 tag_length)), b.drop tag_length))
    else if τ = AGENT_REMOTE_ID then
      if tag_length > 65 then
        some (some (.error (.InvalidTr101TagLength AGENT_REMOTE_ID 1 63
          (tag_length % 65536)), b))
      else
        some (some (.ok (.RemoteId (slice b 2 tag_length)), b.drop tag_length))
    else if τ = ACTUAL_DATA_RATE_UP then
      if tag_length ≠ 6 then
        some (some (.error (.InvalidTr101TagLength ACTUAL_DATA_RATE_UP 6 6
          (tag_length % 65536)), b))
      else some (some (.ok (.ActDataRateUp (readU32 (b.drop 2))), b.drop tag_length))
    else if τ = ACTUAL_DATA_RATE_DOWN then
      if tag_length ≠ 6 then
        some (some (.error (.InvalidTr101TagLength ACTUAL_DATA_RATE_DOWN 6 6
          (tag_length % 65536)), b))
      else some (some (.ok (.ActDataRateDown (readU32 (b.drop 2))), b.drop tag_length))
    else if τ = MINIMUM_DATA_RATE_UP then
      if tag_length ≠ 6 then
        some (some (.error (.InvalidTr101TagLength MINIMUM_DATA_RATE_UP 6 6
          (tag_length % 65536)), b))
      else some (some (.ok (.MinDataRateUp (readU32 (b.drop 2))), b.drop tag_length))
    else if τ = MINIMUM_DATA_RATE_DOWN then
      if tag_length ≠ 6 then
        some (some (.error (.InvalidTr101TagLength MINIMUM_DATA_RATE_DOWN 6 6
          (tag_length % 65536)), b))
      else some (some (.ok (.MinDataRateDown (readU32 (b.drop 2))), b.drop tag_length))
    else if τ = ATTAINABLE_DATA_RATE_UP then
      if tag_length ≠ 6 then
        some (some (.error (.InvalidTr101TagLength ATTAINABLE_DATA_RATE_UP 6 6
          (tag_length % 65536)), b))
      else some (some (.ok (.AttDataRateUp (readU32 (b.drop 2))), b.drop tag_length))
    else if τ = ATTAINABLE_DATA_RATE_DOWN then
      if tag_length ≠ 6 then
        some (some (.error (.InvalidTr101TagLength ATTAINABLE_DATA_RATE_DOWN 6 6
          (tag_length % 65536)), b))
      else some (some (.ok (.AttDataRateDown (readU32 (b.drop 2))), b.drop tag_length))
    else if τ = MAXIMUM_DATA_RATE_UP then
      if tag_length ≠ 6 then
        some (some (.error (.InvalidTr101TagLength MAXIMUM_DATA_RATE_UP 6 6
          (tag_length % 65536)), b))
      else some (some (.ok (.MaxDataRateUp (readU32 (b.drop 2))), b.drop tag_length))
    else if τ = MAXIMUM_DATA_RATE_DOWN then
      if tag_length ≠ 6 then
        some (some (.error (.InvalidTr101TagLength MAXIMUM_DATA_RATE_DOWN 6 6
          (tag_length % 65536)), b))
      else some (some (.ok (.MaxDataRateDown (readU32 (b.drop 2))), b.drop tag_length))
    else if τ = MINIMUM_DATA_RATE_UP_LOW_POWER then
      if tag_length ≠ 6 then
        some (some (.error (.InvalidTr101TagLength MINIMUM_DATA_RATE_UP_LOW_POWER 6 6
          (tag_length % 65536)), b))
      else some (some (.ok (.MinDataRateUp (readU32 (b.drop 2))), b.drop tag_length))
    else if τ = MINIMUM_DATA_RATE_DOWN_LOW_POWER then
      if tag_length ≠ 6 then
        some (some (.error (.InvalidTr101TagLength MINIMUM_DATA_RATE_DOWN_LOW_POWER 6 6
          (tag_length % 65536)), b))
      else some (some (.ok (.MinDataRateDown (readU32 (b.drop 2))), b.drop tag_length))
    else if τ = MAXIMUM_INTERLEAVING_DELAY_UP then
      if tag_length ≠ 6 then
        some (some (.error (.InvalidTr101TagLength MAXIMUM_INTERLEAVING_DELAY_UP 6 6
          (tag_length % 65536)), b))
      else some (some (.ok (.MaxDataRateUp (readU32 (b.drop 2))), b.drop tag_length))
    else if τ = ACTUAL_INTERLEAVING_DELAY_UP then
      if tag_length ≠ 6 then
        some (some (.error (.InvalidTr101TagLength ACTUAL_INTERLEAVING_DELAY_UP 6 6
          (tag_length % 65536)), b))
      else some (some (.ok (.ActDataRateDown (readU32 (b.drop 2))), b.drop tag_length))
    else if τ = MAXIMUM_INTERLEAVING_DELAY_DOWN then
      if tag_length ≠ 6 then
        some (some (.error (.InvalidTr101TagLength MAXIMUM_INTERLEAVING_DELAY_DOWN 6 6
          (tag_length % 65536)), b))
      else some (some (.ok (.MaxDataRateUp (readU32 (b.drop 2))), b.drop tag_length))
    else if τ = ACTUAL_INTERLEAVING_DELAY_DOWN then
      if tag_length ≠ 6 then
        some (some (.error (.InvalidTr101TagLength ACTUAL_INTERLEAVING_DELAY_DOWN 6 6
          (tag_length % 65536)), b))
      else some (some (.ok (.ActDataRateDown (readU32 (b.drop 2))), b.drop tag_length))
    else
      some (some (.ok (.Unknown τ (slice b 2 tag_length)), b.drop tag_length))

/-- The per-tag assignment of the `for` loop in `TryFrom<Tag> for
Tr101Information` (`tr101.rs` lines 265-321), including the source's
misassignments: `ActInterlDelayUp` stores into `act_interl_delay_down`
and `MaxInterlDelayDown` stores into `max_interl_delay_up`. -/
def applyTr101Tag (info : Tr101Information) : Tr101Tag → Tr101Information
  | .CircuitId cid =>
    { info with circuit_id :=
        (cid.length % 256, cid ++ info.circuit_id.2.drop cid.length) }
  | .RemoteId rid =>
    { info with remote_id :=
        (rid.length % 256, rid ++ info.remote_id.2.drop rid.length) }
  | .ActDataRateUp rate => { info with act_data_rate_up := rate }
  | .ActDataRateDown rate => { info with act_data_rate_down := rate }
  | .MinDataRateUp rate => { info with min_data_rate_up := rate }
  | .MinDataRateDown rate => { info with min_data_rate_down := rate }
  | .AttDataRateUp rate => { info with att_data_rate_up := rate }
  | .AttDataRateDown rate => { info with att_data_rate_down := rate }
  | .MaxDataRateUp rate => { info with max_data_rate_up := rate }
  | .MaxDataRateDown rate => { info with max_data_rate_down := rate }
  | .MinDataRateUpLp rate => { info with min_data_rate_up_lp := rate }
  | .MinDataRateDownLp rate => { info with min_data_rate_down_lp := rate }
  | .MaxInterlDelayUp rate => { info with max_interl_delay_up := rate }
  | .ActInterlDelayUp rate => { info with act_interl_delay_down := rate }
  | .MaxInterlDelayDown rate => { info with max_interl_delay_up := rate }
  | .ActInterlDelayDown rate => { info with act_interl_delay_down := rate }
  | .DslType v => { info with dsl_type := v }
  | .AccessLoopEncaps ale => { info with access_loop_encapsulation := ale }
  | .Unknown _ _ => info

/-- The `for tr_tag in tr_iter` loop of `TryFrom<Tag> for Tr101Information`
(fuel-indexed; fuel `buffer.length + 1` suffices since every yielded item
consumes at least two bytes).  The outer `Option` is `none` on a panic
inside `tr101Next` (or fuel exhaustion, which cannot occur at that fuel). -/
def tr101Loop : Nat → List Nat → Tr101Information →
    Option (Except ParseError Tr101Information)
  | 0, _, _ => none
  | fuel + 1, buffer, info =>
    match tr101Next buffer with
    | none => none
    | some none => some (.ok info)
    | some (some (.error e, _)) => some (.error e)
    | some (some (.ok tag, rest)) => tr101Loop fuel rest (applyTr101Tag info tag)

/-- `TryFrom<Tag> for Tr101Information` (`tr101.rs` lines 250-327).  The
outer `Option` is `none` on a panic inside the iterator loop.  Faithful to
the source bug: the iterator is constructed with the FULL tag value
(`Tr101TagIterator { buffer }`), so iteration starts at the four vendor-id
bytes instead of after them. -/
def Tr101Information.try_from (tag : Tag) :
    Option (Except ParseError Tr101Information) :=
  match tag with
  | .vendorSpecific buffer =>
    if buffer.length < 4 then
      some (.error (.IncompleteTag (buffer.length % 256)))
    else if readU32 buffer ≠ BROADBAND_FORUM_VENDOR_ID then
      some (.error (.InvalidTr101VendorId (readU32 buffer)))
    else
      tr101Loop (buffer.length + 1) buffer Tr101Information.default
  | _ => some (.error .TagIsNotVendorSpecific)

/-- The `Tr101Information` of the specification's round-trip scenario:
`with_both_ids "circuit" "remote"` (bytes 99 105 114 99 117 105 116 and
114 101 109 111 116 101) with `act_data_rate_up = 1000000`. -/
def tr101Example : Tr101Information :=
  { circuit_id := (7, [99, 105, 114, 99, 117, 105, 116] ++ List.replicate 57 0),
    remote_id := (6, [114, 101, 109, 111, 116, 101] ++ List.replicate 58 0),
    act_data_rate_up := 1000000,
    act_data_rate_down := 0,
    min_data_rate_up := 0,
    min_data_rate_down := 0,
    att_data_rate_up := 0,
    att_data_rate_down := 0,
    max_data_rate_up := 0,
    max_data_rate_down := 0,
    min_data_rate_up_lp := 0,
    min_data_rate_down_lp := 0,
    max_interl_delay_up := 0,
    act_interl_delay_up := 0,
    max_interl_delay_down := 0,
    act_interl_delay_down := 0,
    dsl_type := 0,
    access_loop_encapsulation := AccessLoopEncapsulation.default }

/-- The 117 bytes `tr101Example.write` produces in a 117-byte zero buffer
(`required_size = 104 + 7 + 6 = 117`): vendor id `0x0DE9`, circuit-id TLV,
remote-id TLV, access-loop-encapsulation TLV `0x90`, fourteen rate/delay
TLVs (1000000 = `0x000F4240`), and 7 untouched trailing zero bytes. -/
def tr101Wire : List Nat :=
  [0, 0, 13, 233] ++
  [1, 7, 99, 105, 114, 99, 117, 105, 116] ++
  [2, 6, 114, 101, 109, 111, 116, 101] ++
  [144, 3, 0, 0, 0] ++
  [129, 4, 0, 15, 66, 64] ++ [130, 4, 0, 0, 0, 0] ++ [131, 4, 0, 0, 0, 0] ++
  [132, 4, 0, 0, 0, 0] ++ [133, 4, 0, 0, 0, 0] ++ [134, 4, 0, 0, 0, 0] ++
  [135, 4, 0, 0, 0, 0] ++ [136, 4, 0, 0, 0, 0] ++ [137, 4, 0, 0, 0, 0] ++
  [138, 4, 0, 0, 0, 0] ++ [139, 4, 0, 0, 0, 0] ++ [140, 4, 0, 0, 0, 0] ++
  [141, 4, 0, 0, 0, 0] ++ [142, 4, 0, 0, 0, 0] ++ List.replicate 7 0

/-! ## Elementary byte-level lemmas -/

theorem w2_length (v : Nat) : (writeU16bytes v).length = 2 := rfl

theorem u16round (v : Nat) : 256 * (v / 256 % 256) + v % 256 = v % 65536 := by
  omega

/-- Reading the type field of an encoded tag. -/
theorem readU16_enc0 (x y : Nat) (z : List Nat) :
    readU16 (writeU16bytes x ++ (writeU16bytes y ++ z)) 0 = x % 65536 := by
  show 256 * (x / 256 % 256) + x % 256 = x % 65536
  omega

/-- Reading the length field of an encoded tag. -/
theorem readU16_enc2 (x y : Nat) (z : List Nat) :
    readU16 (writeU16bytes x ++ (writeU16bytes y ++ z)) 2 = y % 65536 := by
  show 256 * (y / 256 % 256) + y % 256 = y % 65536
  omega

/-- Reading a 16-bit value field right after the tag header. -/
theorem readU16_enc4 (x y m : Nat) (z : List Nat) :
    readU16 (writeU16bytes x ++ (writeU16bytes y ++ (writeU16bytes m ++ z))) 4 = m % 65536 := by
  show 256 * (m / 256 % 256) + m % 256 = m % 65536
  omega

theorem length_enc (x y : Nat) (v z : List Nat) :
    (writeU16bytes x ++ (writeU16bytes y ++ (v ++ z))).length = 4 + v.length + z.length := by
  simp [writeU16bytes]
  omega

theorem drop_cons4 (a b c d : Nat) (w : List Nat) (n : Nat) :
    (a :: b :: c :: d :: w).drop (n + 4) = w.drop n := by
  show (a :: b :: c :: d :: w).drop (n + 1 + 1 + 1 + 1) = w.drop n
  simp [List.drop_succ_cons]

/-- Dropping a whole encoded tag from the front. -/
theorem drop_enc (x y : Nat) (v z : List Nat) :
    (writeU16bytes x ++ (writeU16bytes y ++ (v ++ z))).drop (4 + v.length) = z := by
  show (x / 256 % 256 :: x % 256 :: y / 256 % 256 :: y % 256 :: (v ++ z)).drop (4 + v.length) = z
  rw [Nat.add_comm 4 v.length, drop_cons4, List.drop_left]

/-- Slicing out the value field of an encoded tag. -/
theorem slice_enc (x y : Nat) (v z : List Nat) :
    slice (writeU16bytes x ++ (writeU16bytes y ++ (v ++ z))) 4 (4 + v.length) = v := by
  show ((x / 256 % 256 :: x % 256 :: y / 256 % 256 :: y % 256 :: (v ++ z)).drop 4).take
    (4 + v.length - 4) = v
  have h4 : (x / 256 % 256 :: x % 256 :: y / 256 % 256 :: y % 256 :: (v ++ z)).drop 4 = v ++ z :=
    rfl
  rw [h4, Nat.add_sub_cancel_left, List.take_left]

theorem drop_enc2 (x y : Nat) (v z : List Nat) :
    (writeU16bytes x ++ (writeU16bytes y ++ (v ++ z))).drop (v.length + 4) = z := by
  rw [Nat.add_comm]; exact drop_enc x y v z

theorem slice_enc2 (x y : Nat) (v z : List Nat) :
    slice (writeU16bytes x ++ (writeU16bytes y ++ (v ++ z))) 4 (v.length + 4) = v := by
  rw [Nat.add_comm]; exact slice_enc x y v z

/-- Decoding an encoded well-formed tag from the front of a buffer returns
the tag and leaves the rest untouched. -/
theorem from_buffer_encBytes (t : Tag) (r : List Nat) (h : t.wf) :
    Tag.from_buffer (encBytes t ++ r) = .ok (t, r) := by
  cases t with
  | endOfList =>
    have hB : encBytes .endOfList ++ r = 0 :: 0 :: 0 :: 0 :: r := rfl
    have el : (0 :: 0 :: 0 :: 0 :: r).length = r.length + 4 := by simp
    have e0 : readU16 (0 :: 0 :: 0 :: 0 :: r) 0 = 0 := rfl
    have e2 : readU16 (0 :: 0 :: 0 :: 0 :: r) 2 = 0 := rfl
    have ed : (0 :: 0 :: 0 :: 0 :: r).drop 4 = r := rfl
    have c1 : ¬ (r.length + 4 < 4) := by omega
    rw [hB]
    simp [Tag.from_buffer, Tag.decode_enum, el, e0, e2, ed, c1, TAG_END_OF_LIST, -List.length_append]
  | serviceName v =>
    have hlt : v.length < 65536 := h
    have hB : encBytes (.serviceName v) ++ r =
        writeU16bytes TAG_SERVICE_NAME ++ (writeU16bytes v.length ++ (v ++ r)) := by
      simp [encBytes, Tag.get_tag_type, Tag.valueBytes, List.append_assoc]
    have c1 : ¬ (4 + v.length + r.length < 4) := by omega
    have c2 : ¬ (4 + v.length + r.length < v.length + 4) := by omega
    rw [hB]
    simp [Tag.from_buffer, Tag.decode_enum, length_enc, readU16_enc0, readU16_enc2,
      Nat.mod_eq_of_lt hlt, c1, c2,
      TAG_END_OF_LIST, TAG_SERVICE_NAME, TAG_AC_NAME, TAG_HOST_UNIQ, TAG_AC_COOKIE,
      TAG_VENDOR_SPECIFIC, TAG_RELAY_SESSION_ID, TAG_SERVICE_NAME_ERROR, TAG_AC_SYSTEM_ERROR,
      TAG_GENERIC_ERROR, TAG_PPP_MAX_PAYLOAD, TAG_CREDITS, TAG_METRICS, TAG_SEQUENCE_NUMBER,
      TAG_CREDIT_SCALE_FACTOR, drop_enc2, slice_enc2, -List.length_append]
  | acName v =>
    have hlt : v.length < 65536 := h
    have hB : encBytes (.acName v) ++ r =
        writeU16bytes TAG_AC_NAME ++ (writeU16bytes v.length ++ (v ++ r)) := by
      simp [encBytes, Tag.get_tag_type, Tag.valueBytes, List.append_assoc]
    have c1 : ¬ (4 + v.length + r.length < 4) := by omega
    have c2 : ¬ (4 + v.length + r.length < v.length + 4) := by omega
    rw [hB]
    simp [Tag.from_buffer, Tag.decode_enum, length_enc, readU16_enc0, readU16_enc2,
      Nat.mod_eq_of_lt hlt, c1, c2,
      TAG_END_OF_LIST, TAG_SERVICE_NAME, TAG_AC_NAME, TAG_HOST_UNIQ, TAG_AC_COOKIE,
      TAG_VENDOR_SPECIFIC, TAG_RELAY_SESSION_ID, TAG_SERVICE_NAME_ERROR, TAG_AC_SYSTEM_ERROR,
      TAG_GENERIC_ERROR, TAG_PPP_MAX_PAYLOAD, TAG_CREDITS, TAG_METRICS, TAG_SEQUENCE_NUMBER,
      TAG_CREDIT_SCALE_FACTOR, drop_enc2, slice_enc2, -List.length_append]
  | hostUniq v =>
    have hlt : v.length < 65536 := h
    have hB : encBytes (.hostUniq v) ++ r =
        writeU16bytes TAG_HOST_UNIQ ++ (writeU16bytes v.length ++ (v ++ r)) := by
      simp [encBytes, Tag.get_tag_type, Tag.valueBytes, List.append_assoc]
    have c1 : ¬ (4 + v.length + r.length < 4) := by omega
    have c2 : ¬ (4 + v.length + r.length < v.length + 4) := by omega
    rw [hB]
    simp [Tag.from_buffer, Tag.decode_enum, length_enc, readU16_enc0, readU16_enc2,
      Nat.mod_eq_of_lt hlt, c1, c2,
      TAG_END_OF_LIST, TAG_SERVICE_NAME, TAG_AC_NAME, TAG_HOST_UNIQ, TAG_AC_COOKIE,
      TAG_VENDOR_SPECIFIC, TAG_RELAY_SESSION_ID, TAG_SERVICE_NAME_ERROR, TAG_AC_SYSTEM_ERROR,
      TAG_GENERIC_ERROR, TAG_PPP_MAX_PAYLOAD, TAG_CREDITS, TAG_METRICS, TAG_SEQUENCE_NUMBER,
      TAG_CREDIT_SCALE_FACTOR, drop_enc2, slice_enc2, -List.length_append]
  | acCookie v =>
    have hlt : v.length < 65536 := h
    have hB : encBytes (.acCookie v) ++ r =
        writeU16bytes TAG_AC_COOKIE ++ (writeU16bytes v.length ++ (v ++ r)) := by
      simp [encBytes, Tag.get_tag_type, Tag.valueBytes, List.append_assoc]
    have c1 : ¬ (4 + v.length + r.length < 4) := by omega
    have c2 : ¬ (4 + v.length + r.length < v.length + 4) := by omega
    rw [hB]
    simp [Tag.from_buffer, Tag.decode_enum, length_enc, readU16_enc0, readU16_enc2,
      Nat.mod_eq_of_lt hlt, c1, c2,
      TAG_END_OF_LIST, TAG_SERVICE_NAME, TAG_AC_NAME, TAG_HOST_UNIQ, TAG_AC_COOKIE,
      TAG_VENDOR_SPECIFIC, TAG_RELAY_SESSION_ID, TAG_SERVICE_NAME_ERROR, TAG_AC_SYSTEM_ERROR,
      TAG_GENERIC_ERROR, TAG_PPP_MAX_PAYLOAD, TAG_CREDITS, TAG_METRICS, TAG_SEQUENCE_NUMBER,
      TAG_CREDIT_SCALE_FACTOR, drop_enc2, slice_enc2, -List.length_append]
  | vendorSpecific v =>
    have hlt : v.length < 65536 := h
    have hB : encBytes (.vendorSpecific v) ++ r =
        writeU16bytes TAG_VENDOR_SPECIFIC ++ (writeU16bytes v.length ++ (v ++ r)) := by
      simp [encBytes, Tag.get_tag_type, Tag.valueBytes, List.append_assoc]
    have c1 : ¬ (4 + v.length + r.length < 4) := by omega
    have c2 : ¬ (4 + v.length + r.length < v.length + 4) := by omega
    rw [hB]
    simp [Tag.from_buffer, Tag.decode_enum, length_enc, readU16_enc0, readU16_enc2,
      Nat.mod_eq_of_lt hlt, c1, c2,
      TAG_END_OF_LIST, TAG_SERVICE_NAME, TAG_AC_NAME, TAG_HOST_UNIQ, TAG_AC_COOKIE,
      TAG_VENDOR_SPECIFIC, TAG_RELAY_SESSION_ID, TAG_SERVICE_NAME_ERROR, TAG_AC_SYSTEM_ERROR,
      TAG_GENERIC_ERROR, TAG_PPP_MAX_PAYLOAD, TAG_CREDITS, TAG_METRICS, TAG_SEQUENCE_NUMBER,
      TAG_CREDIT_SCALE_FACTOR, drop_enc2, slice_enc2, -List.length_append]
  | relaySessionId v =>
    have hlt : v.length < 65536 := h
    have hB : encBytes (.relaySessionId v) ++ r =
        writeU16bytes TAG_RELAY_SESSION_ID ++ (writeU16bytes v.length ++ (v ++ r)) := by
      simp [encBytes, Tag.get_tag_type, Tag.valueBytes, List.append_assoc]
    have c1 : ¬ (4 + v.length + r.length < 4) := by omega
    have c2 : ¬ (4 + v.length + r.length < v.length + 4) := by omega
    rw [hB]
    simp [Tag.from_buffer, Tag.decode_enum, length_enc, readU16_enc0, readU16_enc2,
      Nat.mod_eq_of_lt hlt, c1, c2,
      TAG_END_OF_LIST, TAG_SERVICE_NAME, TAG_AC_NAME, TAG_HOST_UNIQ, TAG_AC_COOKIE,
      TAG_VENDOR_SPECIFIC, TAG_RELAY_SESSION_ID, TAG_SERVICE_NAME_ERROR, TAG_AC_SYSTEM_ERROR,
      TAG_GENERIC_ERROR, TAG_PPP_MAX_PAYLOAD, TAG_CREDITS, TAG_METRICS, TAG_SEQUENCE_NUMBER,
      TAG_CREDIT_SCALE_FACTOR, drop_enc2, slice_enc2, -List.length_append]
  | serviceNameError v =>
    have hlt : v.length < 65536 := h
    have hB : encBytes (.serviceNameError v) ++ r =
        writeU16bytes TAG_SERVICE_NAME_ERROR ++ (writeU16bytes v.length ++ (v ++ r)) := by
      simp [encBytes, Tag.get_tag_type, Tag.valueBytes, List.append_assoc]
    have c1 : ¬ (4 + v.length + r.length < 4) := by omega
    have c2 : ¬ (4 + v.length + r.length < v.length + 4) := by omega
    rw [hB]
    simp [Tag.from_buffer, Tag.decode_enum, length_enc, readU16_enc0, readU16_enc2,
      Nat.mod_eq_of_lt hlt, c1, c2,
      TAG_END_OF_LIST, TAG_SERVICE_NAME, TAG_AC_NAME, TAG_HOST_UNIQ, TAG_AC_COOKIE,
      TAG_VENDOR_SPECIFIC, TAG_RELAY_SESSION_ID, TAG_SERVICE_NAME_ERROR, TAG_AC_SYSTEM_ERROR,
      TAG_GENERIC_ERROR, TAG_PPP_MAX_PAYLOAD, TAG_CREDITS, TAG_METRICS, TAG_SEQUENCE_NUMBER,
      TAG_CREDIT_SCALE_FACTOR, drop_enc2, slice_enc2, -List.length_append]
  | acSystemError v =>
    have hlt : v.length < 65536 := h
    have hB : encBytes (.acSystemError v) ++ r =
        writeU16bytes TAG_AC_SYSTEM_ERROR ++ (writeU16bytes v.length ++ (v ++ r)) := by
      simp [encBytes, Tag.get_tag_type, Tag.valueBytes, List.append_assoc]
    have c1 : ¬ (4 + v.length + r.length < 4) := by omega
    have c2 : ¬ (4 + v.length + r.length < v.length + 4) := by omega
    rw [hB]
    simp [Tag.from_buffer, Tag.decode_enum, length_enc, readU16_enc0, readU16_enc2,
      Nat.mod_eq_of_lt hlt, c1, c2,
      TAG_END_OF_LIST, TAG_SERVICE_NAME, TAG_AC_NAME, TAG_HOST_UNIQ, TAG_AC_COOKIE,
      TAG_VENDOR_SPECIFIC, TAG_RELAY_SESSION_ID, TAG_SERVICE_NAME_ERROR, TAG_AC_SYSTEM_ERROR,
      TAG_GENERIC_ERROR, TAG_PPP_MAX_PAYLOAD, TAG_CREDITS, TAG_METRICS, TAG_SEQUENCE_NUMBER,
      TAG_CREDIT_SCALE_FACTOR, drop_enc2, slice_enc2, -List.length_append]
  | genericError v =>
    have hlt : v.length < 65536 := h
    have hB : encBytes (.genericError v) ++ r =
        writeU16bytes TAG_GENERIC_ERROR ++ (writeU16bytes v.length ++ (v ++ r)) := by
      simp [encBytes, Tag.get_tag_type, Tag.valueBytes, List.append_assoc]
    have c1 : ¬ (4 + v.length + r.length < 4) := by omega
    have c2 : ¬ (4 + v.length + r.length < v.length + 4) := by omega
    rw [hB]
    simp [Tag.from_buffer, Tag.decode_enum, length_enc, readU16_enc0, readU16_enc2,
      Nat.mod_eq_of_lt hlt, c1, c2,
      TAG_END_OF_LIST, TAG_SERVICE_NAME, TAG_AC_NAME, TAG_HOST_UNIQ, TAG_AC_COOKIE,
      TAG_VENDOR_SPECIFIC, TAG_RELAY_SESSION_ID, TAG_SERVICE_NAME_ERROR, TAG_AC_SYSTEM_ERROR,
      TAG_GENERIC_ERROR, TAG_PPP_MAX_PAYLOAD, TAG_CREDITS, TAG_METRICS, TAG_SEQUENCE_NUMBER,
      TAG_CREDIT_SCALE_FACTOR, drop_enc2, slice_enc2, -List.length_append]
  | pppMaxMtu mtu =>
    have hlt : mtu < 65536 := h
    have hB : encBytes (.pppMaxMtu mtu) ++ r =
        writeU16bytes TAG_PPP_MAX_PAYLOAD ++ (writeU16bytes 2 ++ (writeU16bytes mtu ++ r)) := by
      simp [encBytes, Tag.get_tag_type, Tag.valueBytes, writeU16bytes, List.append_assoc]
    have c1 : ¬ (6 + r.length < 4) := by omega
    have c2 : ¬ (6 + r.length < 6) := by omega
    have cd : (writeU16bytes 288 ++ (writeU16bytes 2 ++ (writeU16bytes mtu ++ r))).drop 6 = r :=
      drop_enc2 288 2 (writeU16bytes mtu) r
    rw [hB]
    simp [Tag.from_buffer, Tag.decode_enum, length_enc, readU16_enc0, readU16_enc2, readU16_enc4,
      Nat.mod_eq_of_lt hlt, c1, c2, cd, w2_length,
      TAG_END_OF_LIST, TAG_SERVICE_NAME, TAG_AC_NAME, TAG_HOST_UNIQ, TAG_AC_COOKIE,
      TAG_VENDOR_SPECIFIC, TAG_RELAY_SESSION_ID, TAG_SERVICE_NAME_ERROR, TAG_AC_SYSTEM_ERROR,
      TAG_GENERIC_ERROR, TAG_PPP_MAX_PAYLOAD, TAG_CREDITS, TAG_METRICS, TAG_SEQUENCE_NUMBER,
      TAG_CREDIT_SCALE_FACTOR, drop_enc2, slice_enc2, -List.length_append]
  | credits a b => exact h.elim
  | metrics v => exact h.elim
  | sequenceNumber n => exact h.elim
  | creditScaleFactor n => exact h.elim
  | unknown τ v =>
    obtain ⟨h1, h2, h3⟩ := h
    simp [knownTagTypes, TAG_END_OF_LIST, TAG_SERVICE_NAME, TAG_AC_NAME, TAG_HOST_UNIQ, TAG_AC_COOKIE,
      TAG_VENDOR_SPECIFIC, TAG_RELAY_SESSION_ID, TAG_SERVICE_NAME_ERROR, TAG_AC_SYSTEM_ERROR,
      TAG_GENERIC_ERROR, TAG_PPP_MAX_PAYLOAD, TAG_CREDITS, TAG_METRICS, TAG_SEQUENCE_NUMBER,
      TAG_CREDIT_SCALE_FACTOR] at h1
    obtain ⟨n0, n1, n2, n3, n4, n5, n6, n7, n8, n9, n10, n11, n12, n13, n14⟩ := h1
    have hB : encBytes (.unknown τ v) ++ r =
        writeU16bytes τ ++ (writeU16bytes v.length ++ (v ++ r)) := by
      simp [encBytes, Tag.get_tag_type, Tag.valueBytes, List.append_assoc]
    have c1 : ¬ (4 + v.length + r.length < 4) := by omega
    have c2 : ¬ (4 + v.length + r.length < v.length + 4) := by omega
    rw [hB]
    simp [Tag.from_buffer, Tag.decode_enum, length_enc, readU16_enc0, readU16_enc2,
      Nat.mod_eq_of_lt h2, Nat.mod_eq_of_lt h3, c1, c2, n0, n1, n2, n3, n4, n5, n6, n7, n8, n9, n10, n11, n12, n13,
      n14, TAG_END_OF_LIST, TAG_SERVICE_NAME, TAG_AC_NAME, TAG_HOST_UNIQ, TAG_AC_COOKIE,
      TAG_VENDOR_SPECIFIC, TAG_RELAY_SESSION_ID, TAG_SERVICE_NAME_ERROR, TAG_AC_SYSTEM_ERROR,
      TAG_GENERIC_ERROR, TAG_PPP_MAX_PAYLOAD, TAG_CREDITS, TAG_METRICS, TAG_SEQUENCE_NUMBER,
      TAG_CREDIT_SCALE_FACTOR, drop_enc2, slice_enc2, -List.length_append]

theorem encBytes_length (t : Tag) : (encBytes t).length = 4 + t.valueBytes.length := by
  simp [encBytes, writeU16bytes]
  omega

theorem flatTags_cons (t : Tag) (ts : List Tag) :
    flatTags (t :: ts) = encBytes t ++ flatTags ts := rfl

theorem flatTags_length_cons (t : Tag) (ts : List Tag) :
    (flatTags (t :: ts)).length = 4 + t.valueBytes.length + (flatTags ts).length := by
  rw [flatTags_cons]
  simp [encBytes_length]

/-- On the encoding of a well-formed tag sequence, the iterator yields exactly
that sequence (given enough fuel). -/
theorem tagListLoop_flat (T : List Tag) : ∀ fuel : Nat, (∀ t ∈ T, t.wf) →
    (flatTags T).length < fuel → tagListLoop fuel (flatTags T) = some T := by
  induction T with
  | nil =>
    intro fuel _ hf
    cases fuel with
    | zero => omega
    | succ f => simp [tagListLoop, flatTags]
  | cons t ts ih =>
    intro fuel hwf hf
    cases fuel with
    | zero => omega
    | succ f =>
      have hlen := flatTags_length_cons t ts
      have hne : ¬ ((flatTags (t :: ts)).length = 0) := by omega
      have hfb : Tag.from_buffer (flatTags (t :: ts)) = .ok (t, flatTags ts) := by
        rw [flatTags_cons]
        exact from_buffer_encBytes t _ (hwf t (by simp))
      have hrec : tagListLoop f (flatTags ts) = some ts :=
        ih f (fun x hx => hwf x (by simp [hx])) (by omega)
      simp [tagListLoop, hne, hfb, hrec]

theorem tagList_flat (T : List Tag) (hwf : ∀ t ∈ T, t.wf) :
    tagList (flatTags T) = some T :=
  tagListLoop_flat T _ hwf (Nat.lt_succ_self _)

/-- Inversion of a successful `Tag::from_buffer`: the unconsumed rest is the
buffer minus the tag's full width, and at least 4 bytes were consumed. -/
theorem Tag.from_buffer_rest (buffer : List Nat) (t : Tag) (rest : List Nat)
    (h : Tag.from_buffer buffer = .ok (t, rest)) :
    rest = buffer.drop (4 + readU16 buffer 2) ∧ rest.length + 4 ≤ buffer.length := by
  simp only [Tag.from_buffer] at h
  by_cases h1 : buffer.length < 4
  · rw [if_pos h1] at h
    exact Except.noConfusion h
  rw [if_neg h1] at h
  by_cases h2 : readU16 buffer 2 + 4 > buffer.length
  · rw [if_pos h2] at h
    exact Except.noConfusion h
  rw [if_neg h2] at h
  rcases hd : Tag.decode_enum buffer (readU16 buffer 0) (readU16 buffer 2 + 4) with e | te
  · simp only [hd] at h
    exact Except.noConfusion h
  · simp only [hd, Except.ok.injEq, Prod.mk.injEq] at h
    have hr : rest = buffer.drop (readU16 buffer 2 + 4) := h.2.symm
    refine ⟨by rw [Nat.add_comm 4 (readU16 buffer 2)]; exact hr, ?_⟩
    have hlen : rest.length = buffer.length - (readU16 buffer 2 + 4) := by
      rw [hr, List.length_drop]
    omega

/-- Every successful run of the tag iterator yields at most
`payload.length / 4` tags: each step consumes at least four bytes. -/
theorem tagListLoop_length_bound (fuel : Nat) :
    ∀ payload ts, tagListLoop fuel payload = some ts → 4 * ts.length ≤ payload.length := by
  induction fuel with
  | zero =>
    intro payload ts h
    exact absurd h (by simp [tagListLoop])
  | succ f ih =>
    intro payload ts h
    by_cases h0 : payload.length = 0
    · rw [tagListLoop, if_pos h0] at h
      have hts : ts = [] := by simpa using h.symm
      subst hts
      simp
    · rcases hfb : Tag.from_buffer payload with e | tr
      · rw [tagListLoop, if_neg h0] at h
        simp only [hfb] at h
        exact Option.noConfusion h
      · obtain ⟨t, rest⟩ := tr
        rw [tagListLoop, if_neg h0] at h
        simp only [hfb] at h
        rcases hmap : tagListLoop f rest with _ | ts2
        · rw [hmap] at h
          exact absurd h (by simp)
        · rw [hmap] at h
          simp only [Option.map_some', Option.some.injEq] at h
          have hb := ih rest ts2 hmap
          have hc := (Tag.from_buffer_rest payload t rest hfb).2
          subst h
          simp only [List.length_cons]
          omega

theorem dupCheck_not_dup (τ : Nat) (f : DupFlags) (h : τ ∉ dupTagTypes) :
    Header.dupCheck τ f = .ok f := by
  simp [dupTagTypes, TAG_SERVICE_NAME, TAG_AC_NAME, TAG_AC_COOKIE, TAG_HOST_UNIQ,
    TAG_RELAY_SESSION_ID, TAG_PPP_MAX_PAYLOAD] at h
  obtain ⟨n1, n2, n3, n4, n5, n6⟩ := h
  simp [Header.dupCheck, TAG_SERVICE_NAME, TAG_AC_NAME, TAG_AC_COOKIE, TAG_HOST_UNIQ,
    TAG_RELAY_SESSION_ID, TAG_PPP_MAX_PAYLOAD, n1, n2, n3, n4, n5, n6]

theorem dupCheck_fresh (τ : Nat) (f : DupFlags) (hm : τ ∈ dupTagTypes)
    (hf : flagFor f τ = false) :
    Header.dupCheck τ f = .ok (setFlag f τ) := by
  simp only [dupTagTypes, List.mem_cons, List.not_mem_nil, or_false] at hm
  rcases hm with rfl | rfl | rfl | rfl | rfl | rfl <;>
    simp_all [Header.dupCheck, Header.check_duplicate, Except.map, flagFor, setFlag,
      TAG_SERVICE_NAME, TAG_AC_NAME, TAG_AC_COOKIE, TAG_HOST_UNIQ,
      TAG_RELAY_SESSION_ID, TAG_PPP_MAX_PAYLOAD]

theorem dupCheck_seen (τ : Nat) (f : DupFlags) (hm : τ ∈ dupTagTypes)
    (hf : flagFor f τ = true) :
    Header.dupCheck τ f = .error (.DuplicateTag τ) := by
  simp only [dupTagTypes, List.mem_cons, List.not_mem_nil, or_false] at hm
  rcases hm with rfl | rfl | rfl | rfl | rfl | rfl <;>
    simp_all [Header.dupCheck, Header.check_duplicate, Except.map, flagFor,
      TAG_SERVICE_NAME, TAG_AC_NAME, TAG_AC_COOKIE, TAG_HOST_UNIQ,
      TAG_RELAY_SESSION_ID, TAG_PPP_MAX_PAYLOAD]

theorem flagFor_setFlag_self (τ : Nat) (f : DupFlags) (hm : τ ∈ dupTagTypes) :
    flagFor (setFlag f τ) τ = true := by
  simp only [dupTagTypes, List.mem_cons, List.not_mem_nil, or_false] at hm
  rcases hm with rfl | rfl | rfl | rfl | rfl | rfl <;>
    simp [flagFor, setFlag, TAG_SERVICE_NAME, TAG_AC_NAME, TAG_AC_COOKIE, TAG_HOST_UNIQ,
      TAG_RELAY_SESSION_ID, TAG_PPP_MAX_PAYLOAD]

set_option maxHeartbeats 1000000 in
theorem flagFor_setFlag_other (τ σ : Nat) (f : DupFlags) (hne : σ ≠ τ) :
    flagFor (setFlag f τ) σ = flagFor f σ := by
  unfold setFlag
  split_ifs with h1 h2 h3 h4 h5 h6 <;>
    first
      | rfl
      | (unfold flagFor
         split_ifs <;> simp_all)

theorem setFlag_service_name (τ : Nat) (f : DupFlags) (hne : τ ≠ TAG_SERVICE_NAME) :
    (setFlag f τ).service_name = f.service_name := by
  unfold setFlag
  split_ifs <;> simp_all

theorem setFlag_service_name_self (f : DupFlags) :
    (setFlag f TAG_SERVICE_NAME).service_name = true := by
  simp [setFlag]

/-- `dupCheck` never clears the Service-Name flag, and only the
Service-Name arm sets it. -/
theorem dupCheck_ok_service_name (τ : Nat) (f f2 : DupFlags)
    (h : Header.dupCheck τ f = .ok f2) (hne : τ ≠ TAG_SERVICE_NAME) :
    f2.service_name = f.service_name := by
  unfold Header.dupCheck Header.check_duplicate at h
  split_ifs at h <;> simp_all [Except.map] <;> (subst h; rfl)

/-! ## Well-formed tags: basic facts -/

theorem wf_type_lt (t : Tag) (h : t.wf) : t.get_tag_type < 65536 := by
  cases t <;>
    first
      | exact h.elim
      | exact h.2.1
      | simp [Tag.get_tag_type, TAG_END_OF_LIST, TAG_SERVICE_NAME, TAG_AC_NAME, TAG_HOST_UNIQ,
          TAG_AC_COOKIE, TAG_VENDOR_SPECIFIC, TAG_RELAY_SESSION_ID, TAG_SERVICE_NAME_ERROR,
          TAG_AC_SYSTEM_ERROR, TAG_GENERIC_ERROR, TAG_PPP_MAX_PAYLOAD, TAG_CREDITS, TAG_METRICS,
          TAG_SEQUENCE_NUMBER, TAG_CREDIT_SCALE_FACTOR]

theorem wf_vb_lt (t : Tag) (h : t.wf) : t.valueBytes.length < 65536 := by
  cases t <;>
    first
      | exact h.elim
      | exact h.2.2
      | exact h
      | simp [Tag.valueBytes, writeU16bytes]

theorem wf_type_ne_zero (t : Tag) (h : t.wf) (hne : t ≠ .endOfList) :
    t.get_tag_type ≠ 0 := by
  cases t <;>
    first
      | exact absurd rfl hne
      | exact h.elim
      | (intro hz
         subst hz
         exact h.1 (by decide))
      | simp [Tag.get_tag_type, TAG_SERVICE_NAME, TAG_AC_NAME, TAG_HOST_UNIQ,
          TAG_AC_COOKIE, TAG_VENDOR_SPECIFIC, TAG_RELAY_SESSION_ID, TAG_SERVICE_NAME_ERROR,
          TAG_AC_SYSTEM_ERROR, TAG_GENERIC_ERROR, TAG_PPP_MAX_PAYLOAD]

/-- One step of `validate_tags` over an encoded, well-formed, non-EOL tag:
duplicate bookkeeping, then the loop continues on the rest. -/
theorem validateLoop_step (t : Tag) (rest : List Nat) (f : DupFlags) (total fuel : Nat)
    (hwf : t.wf) (hne : t ≠ .endOfList) :
    Header.validateLoop (fuel + 1) (encBytes t ++ rest) f total =
      match Header.dupCheck t.get_tag_type f with
      | .error e => .error e
      | .ok f2 => Header.validateLoop fuel rest f2 total := by
  have hτ := wf_type_lt t hwf
  have hn := wf_vb_lt t hwf
  have h0 := wf_type_ne_zero t hwf hne
  have hB : encBytes t ++ rest =
      writeU16bytes t.get_tag_type ++
        (writeU16bytes t.valueBytes.length ++ (t.valueBytes ++ rest)) := by
    simp [encBytes, List.append_assoc]
  have c0 : ¬ (4 + t.valueBytes.length + rest.length = 0) := by omega
  have c1 : ¬ (4 + t.valueBytes.length + rest.length < 4) := by omega
  have c2 : ¬ (4 + t.valueBytes.length + rest.length < t.valueBytes.length + 4) := by omega
  rw [hB]
  simp [Header.validateLoop, length_enc, readU16_enc0, readU16_enc2, Nat.mod_eq_of_lt hτ,
    Nat.mod_eq_of_lt hn, c0, c1, c2, h0, TAG_END_OF_LIST, drop_enc, -List.length_append]

theorem countTagType_cons (τ : Nat) (t : Tag) (ts : List Tag) :
    countTagType τ (t :: ts) = countTagType τ ts + (if t.get_tag_type = τ then 1 else 0) := by
  simp [countTagType, List.countP_cons]

theorem wf_sn_of_type (t : Tag) (h : t.wf) (ht : t.get_tag_type = TAG_SERVICE_NAME) :
    ∃ m, t = .serviceName m := by
  cases t with
  | serviceName v => exact ⟨v, rfl⟩
  | unknown τ v =>
    exfalso
    have hτ : τ = TAG_SERVICE_NAME := ht
    exact h.1 (by rw [hτ]; decide)
  | credits a b => exact h.elim
  | metrics v => exact h.elim
  | sequenceNumber n => exact h.elim
  | creditScaleFactor n => exact h.elim
  | endOfList => exact absurd ht (by simp [Tag.get_tag_type, TAG_END_OF_LIST, TAG_SERVICE_NAME])
  | acName v => exact absurd ht (by simp [Tag.get_tag_type, TAG_AC_NAME, TAG_SERVICE_NAME])
  | hostUniq v => exact absurd ht (by simp [Tag.get_tag_type, TAG_HOST_UNIQ, TAG_SERVICE_NAME])
  | acCookie v => exact absurd ht (by simp [Tag.get_tag_type, TAG_AC_COOKIE, TAG_SERVICE_NAME])
  | vendorSpecific v =>
    exact absurd ht (by simp [Tag.get_tag_type, TAG_VENDOR_SPECIFIC, TAG_SERVICE_NAME])
  | relaySessionId v =>
    exact absurd ht (by simp [Tag.get_tag_type, TAG_RELAY_SESSION_ID, TAG_SERVICE_NAME])
  | serviceNameError v =>
    exact absurd ht (by simp [Tag.get_tag_type, TAG_SERVICE_NAME_ERROR, TAG_SERVICE_NAME])
  | acSystemError v =>
    exact absurd ht (by simp [Tag.get_tag_type, TAG_AC_SYSTEM_ERROR, TAG_SERVICE_NAME])
  | genericError v =>
    exact absurd ht (by simp [Tag.get_tag_type, TAG_GENERIC_ERROR, TAG_SERVICE_NAME])
  | pppMaxMtu mtu =>
    exact absurd ht (by simp [Tag.get_tag_type, TAG_PPP_MAX_PAYLOAD, TAG_SERVICE_NAME])

theorem setFlag_sn_mono (f : DupFlags) (τ : Nat) (h : f.service_name = true) :
    (setFlag f τ).service_name = true := by
  unfold setFlag
  split_ifs <;> simp_all

theorem sn_type_mem_dup : TAG_SERVICE_NAME ∈ dupTagTypes := by decide

/-- `validate_tags` accepts the encoding of a well-formed tag sequence whose
at-most-once types are fresh, whose EOL (if any) is last, and which contains a
Service-Name tag whenever it ends in EOL. -/
theorem validateLoop_flat_ok (T : List Tag) : ∀ (fuel total : Nat) (f : DupFlags),
    (∀ t ∈ T, t.wf) →
    (∀ τ ∈ dupTagTypes, (flagFor f τ).toNat + countTagType τ T ≤ 1) →
    Tag.endOfList ∉ T.dropLast →
    (T.getLast? = some Tag.endOfList → f.service_name = true ∨ ∃ m, Tag.serviceName m ∈ T) →
    (flatTags T).length < fuel →
    Header.validateLoop fuel (flatTags T) f total = .ok () := by
  induction T with
  | nil =>
    intro fuel total f _ _ _ _ hf
    cases fuel with
    | zero => omega
    | succ fu => simp [Header.validateLoop, flatTags]
  | cons t ts ih =>
    intro fuel total f hwf hcount hdrop hlast hf
    have hlen := flatTags_length_cons t ts
    cases fuel with
    | zero => omega
    | succ fu =>
      by_cases ht : t = Tag.endOfList
      · subst ht
        have hts : ts = [] := by
          cases ts with
          | nil => rfl
          | cons x ts2 =>
            exact absurd (by simp : Tag.endOfList ∈ (Tag.endOfList :: x :: ts2).dropLast) hdrop
        subst hts
        have hsn : f.service_name = true := by
          rcases hlast (by simp) with h | ⟨m, hm⟩
          · exact h
          · simp at hm
        have hfl : flatTags [Tag.endOfList] = [0, 0, 0, 0] := rfl
        rw [hfl]
        simp [Header.validateLoop, Header.dupCheck, readU16, TAG_SERVICE_NAME, TAG_AC_NAME,
          TAG_AC_COOKIE, TAG_HOST_UNIQ, TAG_RELAY_SESSION_ID, TAG_PPP_MAX_PAYLOAD,
          TAG_END_OF_LIST, hsn]
      · rw [flatTags_cons, validateLoop_step t (flatTags ts) f total fu (hwf t (by simp)) ht]
        have hwfts : ∀ x ∈ ts, x.wf := fun x hx => hwf x (by simp [hx])
        have hfuel : (flatTags ts).length < fu := by omega
        have hdrop2 : Tag.endOfList ∉ ts.dropLast := by
          intro hmem
          cases ts with
          | nil => simp at hmem
          | cons x ts2 =>
            exact hdrop (by simp [List.dropLast_cons₂]; right; exact hmem)
        by_cases hm : t.get_tag_type ∈ dupTagTypes
        · have hone := hcount t.get_tag_type hm
          have hcnt : countTagType t.get_tag_type (t :: ts) =
              countTagType t.get_tag_type ts + 1 := by
            rw [countTagType_cons]; simp
          rw [hcnt] at hone
          have hflag : flagFor f t.get_tag_type = false := by
            cases hfl : flagFor f t.get_tag_type
            · rfl
            · rw [hfl] at hone; simp [Bool.toNat] at hone
          have hzero : countTagType t.get_tag_type ts = 0 := by omega
          rw [dupCheck_fresh t.get_tag_type f hm hflag]
          show Header.validateLoop fu (flatTags ts) (setFlag f t.get_tag_type) total = .ok ()
          apply ih fu total _ hwfts _ hdrop2 _ hfuel
          · intro σ hσ
            by_cases hστ : σ = t.get_tag_type
            · rw [hστ, flagFor_setFlag_self _ f hm, hzero]
              simp [Bool.toNat]
            · rw [flagFor_setFlag_other _ σ f hστ]
              have hσc := hcount σ hσ
              rw [countTagType_cons] at hσc
              have he : ¬ (t.get_tag_type = σ) := fun hh => hστ hh.symm
              simpa [he] using hσc
          · intro hl
            cases ts with
            | nil => simp at hl
            | cons x ts2 =>
              rcases hlast (by rw [List.getLast?_cons_cons]; exact hl) with h | ⟨m, hmm⟩
              · exact Or.inl (setFlag_sn_mono f t.get_tag_type h)
              · rcases List.mem_cons.1 hmm with h1 | h1
                · refine Or.inl ?_
                  have hτ : t.get_tag_type = TAG_SERVICE_NAME := by rw [← h1]; rfl
                  rw [hτ]
                  exact setFlag_service_name_self f
                · exact Or.inr ⟨m, h1⟩
        · rw [dupCheck_not_dup t.get_tag_type f hm]
          show Header.validateLoop fu (flatTags ts) f total = .ok ()
          apply ih fu total f hwfts _ hdrop2 _ hfuel
          · intro σ hσ
            have hσc := hcount σ hσ
            rw [countTagType_cons] at hσc
            by_cases he : t.get_tag_type = σ
            · exact absurd (he ▸ hσ) hm
            · simpa [he] using hσc
          · intro hl
            cases ts with
            | nil => simp at hl
            | cons x ts2 =>
              rcases hlast (by rw [List.getLast?_cons_cons]; exact hl) with h | ⟨m, hmm⟩
              · exact Or.inl h
              · rcases List.mem_cons.1 hmm with h1 | h1
                · exfalso
                  have hτ : t.get_tag_type = TAG_SERVICE_NAME := by rw [← h1]; rfl
                  exact hm (hτ ▸ sn_type_mem_dup)
                · exact Or.inr ⟨m, h1⟩

/-- `validate_tags` rejects the encoding of a well-formed EOL-free sequence in
which the at-most-once type `τ` occurs twice (all other at-most-once types
occurring at most once), with exactly `DuplicateTag τ`. -/
theorem validateLoop_flat_dup (τ : Nat) (T : List Tag) : ∀ (fuel total : Nat) (f : DupFlags),
    (∀ t ∈ T, t.wf) →
    τ ∈ dupTagTypes →
    2 ≤ (flagFor f τ).toNat + countTagType τ T →
    (∀ σ ∈ dupTagTypes, σ ≠ τ → (flagFor f σ).toNat + countTagType σ T ≤ 1) →
    Tag.endOfList ∉ T →
    (flatTags T).length < fuel →
    Header.validateLoop fuel (flatTags T) f total = .error (.DuplicateTag τ) := by
  induction T with
  | nil =>
    intro fuel total f _ _ hge _ _ _
    exfalso
    cases hfl : flagFor f τ <;> rw [hfl] at hge <;> simp [countTagType, Bool.toNat] at hge
  | cons t ts ih =>
    intro fuel total f hwf hτm hge hothers heol hf
    have hlen := flatTags_length_cons t ts
    have htne : t ≠ Tag.endOfList := fun hh => heol (by simp [hh])
    have heol2 : Tag.endOfList ∉ ts := fun hh => heol (by simp [hh])
    have hwfts : ∀ x ∈ ts, x.wf := fun x hx => hwf x (by simp [hx])
    cases fuel with
    | zero => omega
    | succ fu =>
      have hfuel : (flatTags ts).length < fu := by omega
      rw [flatTags_cons, validateLoop_step t (flatTags ts) f total fu (hwf t (by simp)) htne]
      by_cases hty : t.get_tag_type = τ
      · cases hfl : flagFor f τ
        · rw [hty, dupCheck_fresh τ f hτm hfl]
          show Header.validateLoop fu (flatTags ts) (setFlag f τ) total =
            .error (.DuplicateTag τ)
          apply ih fu total _ hwfts hτm _ _ heol2 hfuel
          · rw [flagFor_setFlag_self τ f hτm]
            rw [hfl] at hge
            rw [countTagType_cons, hty] at hge
            simp [Bool.toNat] at hge ⊢
            omega
          · intro σ hσ hστ
            rw [flagFor_setFlag_other τ σ f hστ]
            have hσc := hothers σ hσ hστ
            rw [countTagType_cons] at hσc
            have he : ¬ (t.get_tag_type = σ) := by rw [hty]; exact fun hh => hστ hh.symm
            simpa [he] using hσc
        · rw [hty, dupCheck_seen τ f hτm hfl]
      · by_cases hm : t.get_tag_type ∈ dupTagTypes
        · have hone := hothers t.get_tag_type hm hty
          rw [countTagType_cons] at hone
          simp only [if_pos rfl] at hone
          have hflag : flagFor f t.get_tag_type = false := by
            cases hfl : flagFor f t.get_tag_type
            · rfl
            · rw [hfl] at hone; simp [Bool.toNat] at hone
          rw [dupCheck_fresh t.get_tag_type f hm hflag]
          show Header.validateLoop fu (flatTags ts) (setFlag f t.get_tag_type) total =
            .error (.DuplicateTag τ)
          apply ih fu total _ hwfts hτm _ _ heol2 hfuel
          · rw [flagFor_setFlag_other t.get_tag_type τ f (fun hh => hty hh.symm)]
            rw [countTagType_cons] at hge
            simpa [hty] using hge
          · intro σ hσ hστ
            by_cases hσt : σ = t.get_tag_type
            · rw [hσt, flagFor_setFlag_self _ f hm]
              rw [hflag] at hone
              simp [Bool.toNat] at hone ⊢
              omega
            · rw [flagFor_setFlag_other _ σ f hσt]
              have hσc := hothers σ hσ hστ
              rw [countTagType_cons] at hσc
              have he : ¬ (t.get_tag_type = σ) := fun hh => hσt hh.symm
              simpa [he] using hσc
        · rw [dupCheck_not_dup t.get_tag_type f hm]
          show Header.validateLoop fu (flatTags ts) f total = .error (.DuplicateTag τ)
          apply ih fu total f hwfts hτm _ _ heol2 hfuel
          · rw [countTagType_cons] at hge
            have he : ¬ (t.get_tag_type = τ) := hty
            simpa [he] using hge
          · intro σ hσ hστ
            have hσc := hothers σ hσ hστ
            rw [countTagType_cons] at hσc
            have he : ¬ (t.get_tag_type = σ) := fun hh => hm (hh ▸ hσ)
            simpa [he] using hσc

theorem decode_enum_eol (buffer : List Nat) (tag length : Nat)
    (h : Tag.decode_enum buffer tag length = .ok .endOfList) : tag = TAG_END_OF_LIST := by
  unfold Tag.decode_enum at h
  by_cases c0 : tag = TAG_END_OF_LIST
  · exact c0
  rw [if_neg c0] at h
  by_cases c1 : tag = TAG_SERVICE_NAME
  · rw [if_pos c1] at h
    exact Tag.noConfusion (Except.ok.inj h)
  rw [if_neg c1] at h
  by_cases c2 : tag = TAG_AC_NAME
  · rw [if_pos c2] at h
    exact Tag.noConfusion (Except.ok.inj h)
  rw [if_neg c2] at h
  by_cases c3 : tag = TAG_HOST_UNIQ
  · rw [if_pos c3] at h
    exact Tag.noConfusion (Except.ok.inj h)
  rw [if_neg c3] at h
  by_cases c4 : tag = TAG_AC_COOKIE
  · rw [if_pos c4] at h
    exact Tag.noConfusion (Except.ok.inj h)
  rw [if_neg c4] at h
  by_cases c5 : tag = TAG_VENDOR_SPECIFIC
  · rw [if_pos c5] at h
    exact Tag.noConfusion (Except.ok.inj h)
  rw [if_neg c5] at h
  by_cases c6 : tag = TAG_RELAY_SESSION_ID
  · rw [if_pos c6] at h
    exact Tag.noConfusion (Except.ok.inj h)
  rw [if_neg c6] at h
  by_cases c7 : tag = TAG_SERVICE_NAME_ERROR
  · rw [if_pos c7] at h
    exact Tag.noConfusion (Except.ok.inj h)
  rw [if_neg c7] at h
  by_cases c8 : tag = TAG_AC_SYSTEM_ERROR
  · rw [if_pos c8] at h
    exact Tag.noConfusion (Except.ok.inj h)
  rw [if_neg c8] at h
  by_cases c9 : tag = TAG_GENERIC_ERROR
  · rw [if_pos c9] at h
    exact Tag.noConfusion (Except.ok.inj h)
  rw [if_neg c9] at h
  by_cases c10 : tag = TAG_PPP_MAX_PAYLOAD
  · rw [if_pos c10] at h
    by_cases d10 : length ≠ 6
    · rw [if_pos d10] at h
      exact Except.noConfusion h
    · rw [if_neg d10] at h
      exact Tag.noConfusion (Except.ok.inj h)
  rw [if_neg c10] at h
  by_cases c11 : tag = TAG_CREDITS
  · rw [if_pos c11] at h
    by_cases d11 : length ≠ 8
    · rw [if_pos d11] at h
      exact Except.noConfusion h
    · rw [if_neg d11] at h
      exact Tag.noConfusion (Except.ok.inj h)
  rw [if_neg c11] at h
  by_cases c12 : tag = TAG_SEQUENCE_NUMBER
  · rw [if_pos c12] at h
    by_cases d12 : length ≠ 6
    · rw [if_pos d12] at h
      exact Except.noConfusion h
    · rw [if_neg d12] at h
      exact Tag.noConfusion (Except.ok.inj h)
  rw [if_neg c12] at h
  by_cases c13 : tag = TAG_CREDIT_SCALE_FACTOR
  · rw [if_pos c13] at h
    by_cases d13 : length ≠ 6
    · rw [if_pos d13] at h
      exact Except.noConfusion h
    · rw [if_neg d13] at h
      exact Tag.noConfusion (Except.ok.inj h)
  rw [if_neg c13] at h
  by_cases c14 : tag = TAG_METRICS
  · rw [if_pos c14] at h
    exact Tag.noConfusion (Except.ok.inj h)
  rw [if_neg c14] at h
  exact Tag.noConfusion (Except.ok.inj h)

theorem decode_enum_sn (buffer : List Nat) (length : Nat) (t : Tag)
    (h : Tag.decode_enum buffer TAG_SERVICE_NAME length = .ok t) :
    ∃ m, t = .serviceName m := by
  unfold Tag.decode_enum at h
  rw [if_neg (by decide), if_pos rfl] at h
  exact ⟨_, (Except.ok.inj h).symm⟩

theorem Tag.from_buffer_decode (buffer : List Nat) (t : Tag) (rest : List Nat)
    (h : Tag.from_buffer buffer = .ok (t, rest)) :
    Tag.decode_enum buffer (readU16 buffer 0) (readU16 buffer 2 + 4) = .ok t := by
  simp only [Tag.from_buffer] at h
  by_cases h1 : buffer.length < 4
  · rw [if_pos h1] at h
    exact Except.noConfusion h
  rw [if_neg h1] at h
  by_cases h2 : readU16 buffer 2 + 4 > buffer.length
  · rw [if_pos h2] at h
    exact Except.noConfusion h
  rw [if_neg h2] at h
  rcases hd : Tag.decode_enum buffer (readU16 buffer 0) (readU16 buffer 2 + 4) with e | te
  · rw [hd] at h
    exact Except.noConfusion h
  · simp only [hd, Except.ok.injEq, Prod.mk.injEq] at h
    rw [h.1]

/-- Walking a payload that both `validate_tags` accepted and the tag iterator
decoded: if the decoded tags contain End-Of-List, either the Service-Name flag
was already set or a Service-Name tag occurs among the decoded tags. -/
theorem validate_sn_of_eol : ∀ (fuel1 : Nat) (payload : List Nat) (f : DupFlags)
    (total fuel2 : Nat) (ts : List Tag),
    payload.length < fuel1 →
    Header.validateLoop fuel1 payload f total = .ok () →
    tagListLoop fuel2 payload = some ts →
    Tag.endOfList ∈ ts →
    f.service_name = true ∨ ∃ m, Tag.serviceName m ∈ ts := by
  intro fuel1
  induction fuel1 with
  | zero =>
    intro payload _ _ _ _ hlt _ _
    omega
  | succ fu ih =>
    intro payload f total fuel2 ts hlt hv htl hmem
    by_cases h0 : payload.length = 0
    · cases fuel2 with
      | zero => exact absurd htl (by simp [tagListLoop])
      | succ f2n =>
        rw [tagListLoop, if_pos h0] at htl
        have hts : ts = [] := by simpa using htl.symm
        subst hts
        simp at hmem
    · by_cases h4 : payload.length < 4
      · rw [Header.validateLoop, if_neg h0, if_pos h4] at hv
        exact Except.noConfusion hv
      · rw [Header.validateLoop, if_neg h0, if_neg h4] at hv
        rcases hd : Header.dupCheck (readU16 payload 0) f with e | f2
        · rw [hd] at hv
          exact Except.noConfusion hv
        · simp only [hd] at hv
          by_cases heol : readU16 payload 0 = TAG_END_OF_LIST
          · rw [if_pos heol] at hv
            by_cases hc : readU16 payload 2 ≠ 0 ∨ payload.length ≠ 4
            · rw [if_pos hc] at hv
              exact Except.noConfusion hv
            · rw [if_neg hc] at hv
              by_cases hsn : f2.service_name = false
              · rw [if_pos hsn] at hv
                exact Except.noConfusion hv
              · have hsn2 : f2.service_name = true := by
                  revert hsn
                  cases f2.service_name <;> simp
                rw [heol] at hd
                have h00 : Header.dupCheck TAG_END_OF_LIST f = .ok f :=
                  dupCheck_not_dup TAG_END_OF_LIST f (by decide)
                rw [h00] at hd
                have hf2 : f = f2 := Except.ok.inj hd
                subst hf2
                exact Or.inl hsn2
          · rw [if_neg heol] at hv
            by_cases hb : readU16 payload 2 + 4 > payload.length
            · rw [if_pos hb] at hv
              exact Except.noConfusion hv
            · rw [if_neg hb] at hv
              cases fuel2 with
              | zero => exact absurd htl (by simp [tagListLoop])
              | succ f2n =>
                rw [tagListLoop, if_neg h0] at htl
                rcases hfb : Tag.from_buffer payload with e2 | tr
                · rw [hfb] at htl
                  exact Option.noConfusion htl
                · obtain ⟨t, rest⟩ := tr
                  simp only [hfb] at htl
                  rcases hmap : tagListLoop f2n rest with _ | ts2
                  · rw [hmap] at htl
                    exact absurd htl (by simp)
                  · rw [hmap] at htl
                    simp only [Option.map_some', Option.some.injEq] at htl
                    subst htl
                    have hrest := (Tag.from_buffer_rest payload t rest hfb).1
                    have hrestlen := (Tag.from_buffer_rest payload t rest hfb).2
                    have htne : t ≠ Tag.endOfList := by
                      intro hte
                      subst hte
                      exact heol
                        (decode_enum_eol _ _ _ (Tag.from_buffer_decode payload _ rest hfb))
                    have hmem2 : Tag.endOfList ∈ ts2 := by
                      rcases List.mem_cons.1 hmem with h1 | h1
                      · exact absurd h1.symm htne
                      · exact h1
                    have hfu : rest.length < fu := by omega
                    have hv2 : Header.validateLoop fu rest f2 total = .ok () := by
                      rw [hrest]
                      exact hv
                    rcases ih rest f2 total f2n ts2 hfu hv2 hmap hmem2 with hL | ⟨m, hM⟩
                    · by_cases hτ : readU16 payload 0 = TAG_SERVICE_NAME
                      · have hdec := Tag.from_buffer_decode payload t rest hfb
                        rw [hτ] at hdec
                        rcases decode_enum_sn payload _ t hdec with ⟨m, rfl⟩
                        exact Or.inr ⟨m, by simp⟩
                      · have hpres := dupCheck_ok_service_name _ f f2 hd hτ
                        rw [hpres] at hL
                        exact Or.inl hL
                    · exact Or.inr ⟨m, by simp [hM]⟩

/-- Inversion of a successful `Tag::write`: the bytes written are exactly the
tag's encoding, it fits the buffer, and the rest of the buffer is untouched. -/
theorem Tag.write_inv (t : Tag) (buffer : List Nat) (n : Nat) (w : List Nat)
    (h : t.write buffer = some (.ok (n, w))) :
    n = (encBytes t).length ∧ (encBytes t).length ≤ buffer.length ∧
      w = encBytes t ++ buffer.drop (encBytes t).length := by
  cases t with
  | pppMaxMtu mtu =>
    simp only [Tag.write] at h
    split_ifs at h with hlt
    · exact Except.noConfusion (Option.some.inj h)
    · obtain ⟨h1, h2⟩ := Prod.mk.inj (Except.ok.inj (Option.some.inj h))
      refine ⟨?_, ?_, ?_⟩
      · rw [encBytes_length]
        exact h1.symm ▸ rfl
      · rw [encBytes_length]
        simp only [Tag.valueBytes, w2_length]
        omega
      · rw [← h2, encBytes_length]
        simp [encBytes, Tag.get_tag_type, Tag.valueBytes, writeU16bytes, List.append_assoc]
  | credits a b =>
    simp only [Tag.write, Tag.get_tuple] at h
    exact Option.noConfusion h
  | metrics v =>
    simp only [Tag.write, Tag.get_tuple] at h
    exact Option.noConfusion h
  | sequenceNumber a =>
    simp only [Tag.write, Tag.get_tuple] at h
    exact Option.noConfusion h
  | creditScaleFactor a =>
    simp only [Tag.write, Tag.get_tuple] at h
    exact Option.noConfusion h
  | endOfList =>
    simp only [Tag.write, Tag.get_tuple] at h
    split_ifs at h with hlt
    · exact Except.noConfusion (Option.some.inj h)
    · obtain ⟨h1, h2⟩ := Prod.mk.inj (Except.ok.inj (Option.some.inj h))
      refine ⟨?_, ?_, ?_⟩
      · rw [encBytes_length]
        exact h1.symm ▸ rfl
      · rw [encBytes_length]
        simp only [Tag.valueBytes]
        omega
      · rw [← h2, encBytes_length]
        simp [encBytes, Tag.get_tag_type, Tag.valueBytes, w2_length, List.append_assoc]
  | serviceName v =>
    simp only [Tag.write, Tag.get_tuple] at h
    split_ifs at h with hlt
    · exact Except.noConfusion (Option.some.inj h)
    · obtain ⟨h1, h2⟩ := Prod.mk.inj (Except.ok.inj (Option.some.inj h))
      refine ⟨?_, ?_, ?_⟩
      · rw [encBytes_length]
        exact h1.symm ▸ rfl
      · rw [encBytes_length]
        simp only [Tag.valueBytes]
        omega
      · rw [← h2, encBytes_length]
        simp [encBytes, Tag.get_tag_type, Tag.valueBytes, w2_length, List.append_assoc]
  | acName v =>
    simp only [Tag.write, Tag.get_tuple] at h
    split_ifs at h with hlt
    · exact Except.noConfusion (Option.some.inj h)
    · obtain ⟨h1, h2⟩ := Prod.mk.inj (Except.ok.inj (Option.some.inj h))
      refine ⟨?_, ?_, ?_⟩
      · rw [encBytes_length]
        exact h1.symm ▸ rfl
      · rw [encBytes_length]
        simp only [Tag.valueBytes]
        omega
      · rw [← h2, encBytes_length]
        simp [encBytes, Tag.get_tag_type, Tag.valueBytes, w2_length, List.append_assoc]
  | hostUniq v =>
    simp only [Tag.write, Tag.get_tuple] at h
    split_ifs at h with hlt
    · exact Except.noConfusion (Option.some.inj h)
    · obtain ⟨h1, h2⟩ := Prod.mk.inj (Except.ok.inj (Option.some.inj h))
      refine ⟨?_, ?_, ?_⟩
      · rw [encBytes_length]
        exact h1.symm ▸ rfl
      · rw [encBytes_length]
        simp only [Tag.valueBytes]
        omega
      · rw [← h2, encBytes_length]
        simp [encBytes, Tag.get_tag_type, Tag.valueBytes, w2_length, List.append_assoc]
  | acCookie v =>
    simp only [Tag.write, Tag.get_tuple] at h
    split_ifs at h with hlt
    · exact Except.noConfusion (Option.some.inj h)
    · obtain ⟨h1, h2⟩ := Prod.mk.inj (Except.ok.inj (Option.some.inj h))
      refine ⟨?_, ?_, ?_⟩
      · rw [encBytes_length]
        exact h1.symm ▸ rfl
      · rw [encBytes_length]
        simp only [Tag.valueBytes]
        omega
      · rw [← h2, encBytes_length]
        simp [encBytes, Tag.get_tag_type, Tag.valueBytes, w2_length, List.append_assoc]
  | vendorSpecific v =>
    simp only [Tag.write, Tag.get_tuple] at h
    split_ifs at h with hlt
    · exact Except.noConfusion (Option.some.inj h)
    · obtain ⟨h1, h2⟩ := Prod.mk.inj (Except.ok.inj (Option.some.inj h))
      refine ⟨?_, ?_, ?_⟩
      · rw [encBytes_length]
        exact h1.symm ▸ rfl
      · rw [encBytes_length]
        simp only [Tag.valueBytes]
        omega
      · rw [← h2, encBytes_length]
        simp [encBytes, Tag.get_tag_type, Tag.valueBytes, w2_length, List.append_assoc]
  | relaySessionId v =>
    simp only [Tag.write, Tag.get_tuple] at h
    split_ifs at h with hlt
    · exact Except.noConfusion (Option.some.inj h)
    · obtain ⟨h1, h2⟩ := Prod.mk.inj (Except.ok.inj (Option.some.inj h))
      refine ⟨?_, ?_, ?_⟩
      · rw [encBytes_length]
        exact h1.symm ▸ rfl
      · rw [encBytes_length]
        simp only [Tag.valueBytes]
        omega
      · rw [← h2, encBytes_length]
        simp [encBytes, Tag.get_tag_type, Tag.valueBytes, w2_length, List.append_assoc]
  | serviceNameError v =>
    simp only [Tag.write, Tag.get_tuple] at h
    split_ifs at h with hlt
    · exact Except.noConfusion (Option.some.inj h)
    · obtain ⟨h1, h2⟩ := Prod.mk.inj (Except.ok.inj (Option.some.inj h))
      refine ⟨?_, ?_, ?_⟩
      · rw [encBytes_length]
        exact h1.symm ▸ rfl
      · rw [encBytes_length]
        simp only [Tag.valueBytes]
        omega
      · rw [← h2, encBytes_length]
        simp [encBytes, Tag.get_tag_type, Tag.valueBytes, w2_length, List.append_assoc]
  | acSystemError v =>
    simp only [Tag.write, Tag.get_tuple] at h
    split_ifs at h with hlt
    · exact Except.noConfusion (Option.some.inj h)
    · obtain ⟨h1, h2⟩ := Prod.mk.inj (Except.ok.inj (Option.some.inj h))
      refine ⟨?_, ?_, ?_⟩
      · rw [encBytes_length]
        exact h1.symm ▸ rfl
      · rw [encBytes_length]
        simp only [Tag.valueBytes]
        omega
      · rw [← h2, encBytes_length]
        simp [encBytes, Tag.get_tag_type, Tag.valueBytes, w2_length, List.append_assoc]
  | genericError v =>
    simp only [Tag.write, Tag.get_tuple] at h
    split_ifs at h with hlt
    · exact Except.noConfusion (Option.some.inj h)
    · obtain ⟨h1, h2⟩ := Prod.mk.inj (Except.ok.inj (Option.some.inj h))
      refine ⟨?_, ?_, ?_⟩
      · rw [encBytes_length]
        exact h1.symm ▸ rfl
      · rw [encBytes_length]
        simp only [Tag.valueBytes]
        omega
      · rw [← h2, encBytes_length]
        simp [encBytes, Tag.get_tag_type, Tag.valueBytes, w2_length, List.append_assoc]
  | unknown τ v =>
    simp only [Tag.write, Tag.get_tuple] at h
    split_ifs at h with hlt
    · exact Except.noConfusion (Option.some.inj h)
    · obtain ⟨h1, h2⟩ := Prod.mk.inj (Except.ok.inj (Option.some.inj h))
      refine ⟨?_, ?_, ?_⟩
      · rw [encBytes_length]
        exact h1.symm ▸ rfl
      · rw [encBytes_length]
        simp only [Tag.valueBytes]
        omega
      · rw [← h2, encBytes_length]
        simp [encBytes, Tag.get_tag_type, Tag.valueBytes, w2_length, List.append_assoc]

theorem flatTags_length_append (t : Tag) (ts : List Tag) :
    (flatTags (t :: ts)).length = (encBytes t).length + (flatTags ts).length := by
  rw [flatTags_cons, List.length_append]

theorem create_packet_hdrBuf (buffer : List Nat) (code : Code) (session_id : Nat)
    (h6 : ¬ (buffer.length < 6)) :
    Header.create_packet buffer code session_id =
      .ok (hdrBuf code session_id [] (buffer.drop 6)) := by
  rw [Header.create_packet, if_neg h6]
  rfl

theorem len_hdrBuf (c : Code) (s : Nat) (p tail : List Nat) (hp : p.length ≤ 65529) :
    Header.len (hdrBuf c s p tail) = 6 + p.length := by
  show (6 + (256 * (p.length / 256 % 256) + p.length % 256)) % 65536 = 6 + p.length
  omega

theorem drop_cons6 (a1 a2 a3 a4 a5 a6 : Nat) (w : List Nat) (n : Nat) :
    (a1 :: a2 :: a3 :: a4 :: a5 :: a6 :: w).drop (n + 6) = w.drop n := by
  show (a1 :: a2 :: a3 :: a4 :: a5 :: a6 :: w).drop (n + 1 + 1 + 1 + 1 + 1 + 1) = w.drop n
  simp [List.drop_succ_cons]

theorem take_cons6 (a1 a2 a3 a4 a5 a6 : Nat) (w : List Nat) (n : Nat) :
    (a1 :: a2 :: a3 :: a4 :: a5 :: a6 :: w).take (n + 6) =
      a1 :: a2 :: a3 :: a4 :: a5 :: a6 :: w.take n := by
  show (a1 :: a2 :: a3 :: a4 :: a5 :: a6 :: w).take (n + 1 + 1 + 1 + 1 + 1 + 1) = _
  simp [List.take_succ_cons]

theorem drop6_hdrBuf (c : Code) (s : Nat) (p tail : List Nat) :
    (hdrBuf c s p tail).drop (6 + p.length) = tail := by
  show (0x11 :: c.toNat :: s / 256 % 256 :: s % 256 :: p.length / 256 % 256 ::
    p.length % 256 :: (p ++ tail)).drop (6 + p.length) = tail
  rw [Nat.add_comm 6 p.length, drop_cons6, List.drop_left]

theorem take_hdrBuf (c : Code) (s : Nat) (p tail : List Nat) :
    (hdrBuf c s p tail).take (6 + p.length) =
      0x11 :: c.toNat :: s / 256 % 256 :: s % 256 :: p.length / 256 % 256 ::
        p.length % 256 :: p := by
  show (0x11 :: c.toNat :: s / 256 % 256 :: s % 256 :: p.length / 256 % 256 ::
    p.length % 256 :: (p ++ tail)).take (6 + p.length) = _
  rw [Nat.add_comm 6 p.length, take_cons6, List.take_left]

theorem set_len_take_hdrBuf (c : Code) (s v : Nat) (p tail w : List Nat) :
    Header.set_len ((hdrBuf c s p tail).take (6 + p.length) ++ w) v =
      0x11 :: c.toNat :: (writeU16bytes s ++ (writeU16bytes v ++ (p ++ w))) := by
  rw [take_hdrBuf]
  rfl

theorem length_hdrBuf (c : Code) (s : Nat) (p tail : List Nat) :
    (hdrBuf c s p tail).length = 6 + p.length + tail.length := by
  show (0x11 :: c.toNat :: s / 256 % 256 :: s % 256 :: p.length / 256 % 256 ::
    p.length % 256 :: (p ++ tail)).length = 6 + p.length + tail.length
  simp [List.length_append]
  omega

theorem readU16_4_hdrBuf (c : Code) (s : Nat) (p tail : List Nat) (hp : p.length ≤ 65535) :
    readU16 (hdrBuf c s p tail) 4 = p.length := by
  show 256 * (p.length / 256 % 256) + p.length % 256 = p.length
  omega

/-- Inversion of a successful `add_tag` on a builder-shaped buffer: the tag's
encoding fit in the tail, was appended to the payload, and the length field
was bumped accordingly (a success also certifies that the u16 addition
inside `len()` did not overflow, i.e. `p.length ≤ 65529`). -/
theorem add_tag_hdrBuf (c : Code) (s : Nat) (p tail : List Nat) (t : Tag)
    (res : List Nat) (hp : p.length ≤ 65535)
    (h : Header.add_tag (hdrBuf c s p tail) t = some (.ok res)) :
    (encBytes t).length ≤ tail.length ∧
      res = hdrBuf c s (p ++ encBytes t) (tail.drop (encBytes t).length) := by
  simp only [Header.add_tag] at h
  have hread := readU16_4_hdrBuf c s p tail hp
  by_cases hbig : p.length ≤ 65529
  · have hlen := len_hdrBuf c s p tail hbig
    have hg : 6 + readU16 (hdrBuf c s p tail) 4 < 65536 ∧
        Header.len (hdrBuf c s p tail) ≤ (hdrBuf c s p tail).length := by
      refine ⟨by rw [hread]; omega, ?_⟩
      rw [hlen, length_hdrBuf]
      omega
    rw [if_pos hg, hlen, drop6_hdrBuf c s p tail] at h
    rcases hw : Tag.write t tail with _ | e | ⟨n, w⟩
    · rw [hw] at h
      exact Option.noConfusion h
    · simp only [hw] at h
      exact Except.noConfusion (Option.some.inj h)
    · simp only [hw] at h
      have hres := Except.ok.inj (Option.some.inj h)
      obtain ⟨hn, hle, hwshape⟩ := Tag.write_inv t tail n w hw
      refine ⟨hle, ?_⟩
      rw [← hres, hwshape, hn]
      have harith : 6 + p.length - 6 + (encBytes t).length = p.length + (encBytes t).length := by
        omega
      rw [harith, set_len_take_hdrBuf]
      simp [hdrBuf, List.append_assoc, List.length_append]
  · have hg : ¬ (6 + readU16 (hdrBuf c s p tail) 4 < 65536 ∧
        Header.len (hdrBuf c s p tail) ≤ (hdrBuf c s p tail).length) := by
      rw [hread]
      intro hc
      omega
    rw [if_neg hg] at h
    exact Option.noConfusion h

/-- Folding `add_tag` over a tag list from a builder-shaped buffer: all
encodings land after the payload in order, with the length field kept in
sync (provided the final payload length still fits the 16-bit field). -/
theorem addAll_hdrBuf (T : List Tag) : ∀ (c : Code) (s : Nat) (p tail res : List Nat),
    p.length + (flatTags T).length ≤ 65535 →
    addAll (hdrBuf c s p tail) T = some (.ok res) →
    (flatTags T).length ≤ tail.length ∧
      res = hdrBuf c s (p ++ flatTags T) (tail.drop (flatTags T).length) := by
  induction T with
  | nil =>
    intro c s p tail res _ h
    simp only [addAll] at h
    have hres := Except.ok.inj (Option.some.inj h)
    simp [flatTags, hres]
  | cons t ts ih =>
    intro c s p tail res hb h
    simp only [addAll] at h
    rcases ha : Header.add_tag (hdrBuf c s p tail) t with _ | e | b2
    · rw [ha] at h
      exact Option.noConfusion h
    · simp only [ha] at h
      exact Except.noConfusion (Option.some.inj h)
    · simp only [ha] at h
      have hfl := flatTags_length_append t ts
      have hp : p.length ≤ 65535 := by omega
      obtain ⟨hle, hb2⟩ := add_tag_hdrBuf c s p tail t b2 hp ha
      subst hb2
      have hb3 : (p ++ encBytes t).length + (flatTags ts).length ≤ 65535 := by
        rw [List.length_append]
        omega
      obtain ⟨hle2, hres⟩ := ih c s (p ++ encBytes t) (tail.drop (encBytes t).length) res hb3 h
      constructor
      · rw [List.length_drop] at hle2
        omega
      · rw [hres, flatTags_cons, List.drop_drop, List.append_assoc]
        rw [show (encBytes t).length + (flatTags ts).length =
          (encBytes t ++ flatTags ts).length from (List.length_append _ _).symm]

theorem slice6_hdrBuf (c : Code) (s : Nat) (p tail : List Nat) :
    slice (hdrBuf c s p tail) 6 (6 + p.length) = p := by
  show (p ++ tail).take (6 + p.length - 6) = p
  rw [Nat.add_sub_cancel_left]
  exact List.take_left p tail

theorem code_try_from (c : Code) : Code.try_from c.toNat = .ok c := by
  cases c <;> rfl

theorem flagFor_init (τ : Nat) : flagFor DupFlags.init τ = false := by
  unfold flagFor DupFlags.init
  split_ifs <;> rfl

/-- Parsing a builder-shaped buffer with a nonempty payload reduces to
`validate_tags` on the payload. -/
theorem from_buffer_hdrBuf (c : Code) (s : Nat) (p tail : List Nat)
    (hp : p.length ≤ 65535) (hne : p ≠ []) :
    Header.from_buffer (hdrBuf c s p tail) =
      match Header.validate_tags p with
      | .error e => .error e
      | .ok _ => .ok (hdrBuf c s p tail) := by
  have hlen := length_hdrBuf c s p tail
  have hg0 : (hdrBuf c s p tail).getD 0 0 = 0x11 := rfl
  have hg1 : (hdrBuf c s p tail).getD 1 0 = c.toNat := rfl
  have hpne : p.length ≠ 0 := fun hz => hne (List.length_eq_zero.1 hz)
  unfold Header.from_buffer Header.from_buffer_with_code
  rw [hlen, if_neg (by omega), hg0, if_neg (by simp), hg1, code_try_from]
  show Header.from_buffer_tail (hdrBuf c s p tail) = _
  unfold Header.from_buffer_tail
  rw [readU16_4_hdrBuf c s p tail hp, hlen, if_neg (by omega), if_neg hpne, slice6_hdrBuf]

theorem tag_iter_hdrBuf (c : Code) (s : Nat) (p tail : List Nat) (hp : p.length ≤ 65529) :
    Header.tag_iter (hdrBuf c s p tail) = tagList p := by
  unfold Header.tag_iter
  have hlen := len_hdrBuf c s p tail hp
  rw [if_pos ⟨by rw [readU16_4_hdrBuf c s p tail (by omega)]; omega,
    by rw [hlen, length_hdrBuf]; omega⟩, hlen, slice6_hdrBuf]

theorem flatTags_ne_nil (T : List Tag) (hne : T ≠ []) : flatTags T ≠ [] := by
  cases T with
  | nil => exact absurd rfl hne
  | cons t ts =>
    intro hz
    have := flatTags_length_append t ts
    have hz2 : (flatTags (t :: ts)).length = 0 := by rw [hz]; rfl
    have he := encBytes_length t
    omega

theorem validate_tags_flat_ok (T : List Tag)
    (hwf : ∀ t ∈ T, t.wf)
    (hdup : ∀ τ ∈ dupTagTypes, countTagType τ T ≤ 1)
    (heol : Tag.endOfList ∉ T.dropLast)
    (hsn : T.getLast? = some Tag.endOfList → ∃ m, Tag.serviceName m ∈ T) :
    Header.validate_tags (flatTags T) = .ok () := by
  unfold Header.validate_tags
  apply validateLoop_flat_ok T _ _ DupFlags.init hwf _ heol _ (Nat.lt_succ_self _)
  · intro τ hτ
    rw [flagFor_init]
    simpa using hdup τ hτ
  · intro hl
    exact Or.inr (hsn hl)

theorem buildPacket_shape (buffer : List Nat) (code : Code) (session_id : Nat)
    (T : List Tag) (out : List Nat)
    (hfit : (flatTags T).length ≤ 65535)
    (h : buildPacket buffer code session_id T = some (.ok out)) :
    out = hdrBuf code session_id (flatTags T) ((buffer.drop 6).drop (flatTags T).length) := by
  unfold buildPacket at h
  by_cases h6 : buffer.length < 6
  · rw [Header.create_packet, if_pos h6] at h
    exact Except.noConfusion (Option.some.inj h)
  · rw [create_packet_hdrBuf buffer code session_id h6] at h
    obtain ⟨_, hout⟩ := addAll_hdrBuf T code session_id [] (buffer.drop 6) out
      (by simpa using hfit) h
    simpa using hout

/-! ## Claim theorems -/

/-- C2: build/parse round-trip.  For any sequence `T` of valid tags
(well-formed, at-most-once types not repeated, End-Of-List only in last
position, Service-Name present when the sequence ends in End-Of-List,
nonempty) that fits the buffer (`create_packet` + every `add_tag` succeeded,
and the total encoded payload is at most 65529 bytes, so the u16 addition
inside `len()` never overflows when the frame is iterated), parsing the
resulting bytes with `Header::from_buffer` succeeds and the tag iterator
produces exactly the tags `T`, in order, End-Of-List included. -/
theorem C2_roundtrip (buffer : List Nat) (code : Code) (session_id : Nat)
    (T : List Tag) (out : List Nat)
    (hwf : ∀ t ∈ T, t.wf)
    (hdup : ∀ τ ∈ dupTagTypes, countTagType τ T ≤ 1)
    (heol : Tag.endOfList ∉ T.dropLast)
    (hsn : T.getLast? = some Tag.endOfList → ∃ m, Tag.serviceName m ∈ T)
    (hne : T ≠ [])
    (hfit : (flatTags T).length ≤ 65529)
    (hbuild : buildPacket buffer code session_id T = some (.ok out)) :
    Header.from_buffer out = .ok out ∧ Header.tag_iter out = some T := by
  have hshape := buildPacket_shape buffer code session_id T out (by omega) hbuild
  subst hshape
  have hv := validate_tags_flat_ok T hwf hdup heol hsn
  have hfb := from_buffer_hdrBuf code session_id (flatTags T)
    ((buffer.drop 6).drop (flatTags T).length) (by omega) (flatTags_ne_nil T hne)
  rw [hv] at hfb
  refine ⟨hfb, ?_⟩
  rw [tag_iter_hdrBuf code session_id (flatTags T) _ hfit]
  exact tagList_flat T hwf

/-- Witness for C2: a PADI built over a 40-byte buffer with a Service-Name
tag and an End-Of-List tag round-trips. -/
theorem C2_roundtrip_witness :
    Header.from_buffer (hdrBuf .padi 0 (flatTags [Tag.serviceName [97], Tag.endOfList])
        ((List.replicate 40 0).drop 6 |>.drop
          (flatTags [Tag.serviceName [97], Tag.endOfList]).length)) =
      .ok (hdrBuf .padi 0 (flatTags [Tag.serviceName [97], Tag.endOfList])
        ((List.replicate 40 0).drop 6 |>.drop
          (flatTags [Tag.serviceName [97], Tag.endOfList]).length)) ∧
    Header.tag_iter (hdrBuf .padi 0 (flatTags [Tag.serviceName [97], Tag.endOfList])
        ((List.replicate 40 0).drop 6 |>.drop
          (flatTags [Tag.serviceName [97], Tag.endOfList]).length)) =
      some [Tag.serviceName [97], Tag.endOfList] :=
  C2_roundtrip (List.replicate 40 0) .padi 0 [Tag.serviceName [97], Tag.endOfList] _
    (by decide) (by decide) (by decide) (fun _ => ⟨[97], by decide⟩) (by decide) (by decide)
    (by decide)

/-- C10: every successful `Tag::from_buffer` returns the rest slice
`buffer[4+length..]`, consuming at least 4 bytes, and consequently the tag
iterator terminates on every finite payload: a successful full iteration
yields at most `payload.length / 4` tags. -/
theorem C10_consume_progress :
    (∀ (buffer : List Nat) (t : Tag) (rest : List Nat),
        Tag.from_buffer buffer = .ok (t, rest) →
        rest = buffer.drop (4 + readU16 buffer 2) ∧ rest.length + 4 ≤ buffer.length) ∧
    (∀ (payload : List Nat) (ts : List Tag),
        tagList payload = some ts → 4 * ts.length ≤ payload.length) := by
  constructor
  · exact Tag.from_buffer_rest
  · intro payload ts h
    exact tagListLoop_length_bound _ payload ts h

/-- Witness for C10 at the 4-byte End-Of-List tag. -/
theorem C10_consume_progress_witness :
    (([] : List Nat) = ([0, 0, 0, 0] : List Nat).drop (4 + readU16 [0, 0, 0, 0] 2) ∧
      ([] : List Nat).length + 4 ≤ ([0, 0, 0, 0] : List Nat).length) ∧
    4 * [Tag.endOfList].length ≤ ([0, 0, 0, 0] : List Nat).length :=
  ⟨C10_consume_progress.1 [0, 0, 0, 0] Tag.endOfList [] (by decide),
   C10_consume_progress.2 [0, 0, 0, 0] [Tag.endOfList] (by decide)⟩

theorem from_buffer_tail_id (buffer out : List Nat)
    (h : Header.from_buffer_tail buffer = .ok out) : out = buffer := by
  simp only [Header.from_buffer_tail] at h
  by_cases h1 : readU16 buffer 4 + 6 > buffer.length
  · rw [if_pos h1] at h
    exact Except.noConfusion h
  rw [if_neg h1] at h
  by_cases h2 : readU16 buffer 4 = 0
  · rw [if_pos h2] at h
    exact Except.noConfusion h
  rw [if_neg h2] at h
  rcases hv : Header.validate_tags (slice buffer 6 (6 + readU16 buffer 4)) with e | u
  · rw [hv] at h
    exact Except.noConfusion h
  · simp only [hv] at h
    exact (Except.ok.inj h).symm

/-- C9: `Header::from_buffer` and `from_buffer_with_code` never modify the
buffer: on success the returned header view is byte-for-byte the input
buffer (and no code path writes to it). -/
theorem C9_parse_does_not_mutate :
    (∀ (buffer out : List Nat), Header.from_buffer buffer = .ok out → out = buffer) ∧
    (∀ (buffer : List Nat) (expected : Option Code) (out : List Nat),
        Header.from_buffer_with_code buffer expected = .ok out → out = buffer) := by
  have hgen : ∀ (buffer : List Nat) (expected : Option Code) (out : List Nat),
      Header.from_buffer_with_code buffer expected = .ok out → out = buffer := by
    intro buffer expected out h
    simp only [Header.from_buffer_with_code] at h
    by_cases h1 : buffer.length < 6
    · rw [if_pos h1] at h
      exact Except.noConfusion h
    rw [if_neg h1] at h
    by_cases h2 : buffer.getD 0 0 ≠ 0x11
    · rw [if_pos h2] at h
      by_cases h3 : buffer.getD 0 0 / 16 ≠ 1
      · rw [if_pos h3] at h
        exact Except.noConfusion h
      · rw [if_neg h3] at h
        exact Except.noConfusion h
    rw [if_neg h2] at h
    rcases hc : Code.try_from (buffer.getD 1 0) with e | code
    · rw [hc] at h
      exact Except.noConfusion h
    · simp only [hc] at h
      cases expected with
      | none => exact from_buffer_tail_id buffer out h
      | some ec =>
        dsimp only at h
        by_cases h4 : code ≠ ec
        · rw [if_pos h4] at h
          exact Except.noConfusion h
        · rw [if_neg h4] at h
          exact from_buffer_tail_id buffer out h
  exact ⟨fun buffer out h => hgen buffer none out h, hgen⟩

/-- Witness for C9 at a minimal valid PADI frame. -/
theorem C9_parse_does_not_mutate_witness :
    ([0x11, 0x09, 0, 0, 0, 8, 1, 1, 0, 0, 0, 0, 0, 0] : List Nat) =
      [0x11, 0x09, 0, 0, 0, 8, 1, 1, 0, 0, 0, 0, 0, 0] :=
  C9_parse_does_not_mutate.1 [0x11, 0x09, 0, 0, 0, 8, 1, 1, 0, 0, 0, 0, 0, 0]
    [0x11, 0x09, 0, 0, 0, 8, 1, 1, 0, 0, 0, 0, 0, 0] (by decide)

/-- C3 (code bug): a frame that `Header::from_buffer` accepts — its payload
is a single PPP-Max-Payload tag with value length 3, which `validate_tags`
never length-checks — makes the tag iterator panic: `TagIterator::next`
unwraps `Tag::from_buffer`, which fails with `TagWithInvalidLength` on that
same payload.  Iteration within a validated frame can fail, contradicting
the iterator's own comment and the specification. -/
theorem C3_validated_frame_iteration_panics :
    Header.from_buffer [0x11, 0x09, 0, 0, 0, 7, 0x01, 0x20, 0, 3, 0xAA, 0xBB, 0xCC] =
      .ok [0x11, 0x09, 0, 0, 0, 7, 0x01, 0x20, 0, 3, 0xAA, 0xBB, 0xCC] ∧
    Header.tag_iter [0x11, 0x09, 0, 0, 0, 7, 0x01, 0x20, 0, 3, 0xAA, 0xBB, 0xCC] = none ∧
    Tag.from_buffer [0x01, 0x20, 0, 3, 0xAA, 0xBB, 0xCC] =
      .error (.TagWithInvalidLength TAG_PPP_MAX_PAYLOAD 7) := by
  refine ⟨by decide, by decide, by decide⟩

theorem from_buffer_with_code_ok_tail (buffer : List Nat) (expected : Option Code)
    (out : List Nat) (h : Header.from_buffer_with_code buffer expected = .ok out) :
    Header.from_buffer_tail buffer = .ok out := by
  simp only [Header.from_buffer_with_code] at h
  by_cases h1 : buffer.length < 6
  · rw [if_pos h1] at h
    exact Except.noConfusion h
  rw [if_neg h1] at h
  by_cases h2 : buffer.getD 0 0 ≠ 0x11
  · rw [if_pos h2] at h
    by_cases h3 : buffer.getD 0 0 / 16 ≠ 1
    · rw [if_pos h3] at h
      exact Except.noConfusion h
    · rw [if_neg h3] at h
      exact Except.noConfusion h
  rw [if_neg h2] at h
  rcases hc : Code.try_from (buffer.getD 1 0) with e | code
  · rw [hc] at h
    exact Except.noConfusion h
  · simp only [hc] at h
    cases expected with
    | none => exact h
    | some ec =>
      dsimp only at h
      by_cases h4 : code ≠ ec
      · rw [if_pos h4] at h
        exact Except.noConfusion h
      · rw [if_neg h4] at h
        exact h

theorem from_buffer_tail_validate (buffer out : List Nat)
    (h : Header.from_buffer_tail buffer = .ok out) :
    Header.validate_tags (slice buffer 6 (6 + readU16 buffer 4)) = .ok () := by
  simp only [Header.from_buffer_tail] at h
  by_cases h1 : readU16 buffer 4 + 6 > buffer.length
  · rw [if_pos h1] at h
    exact Except.noConfusion h
  rw [if_neg h1] at h
  by_cases h2 : readU16 buffer 4 = 0
  · rw [if_pos h2] at h
    exact Except.noConfusion h
  rw [if_neg h2] at h
  rcases hv : Header.validate_tags (slice buffer 6 (6 + readU16 buffer 4)) with e | u
  · rw [hv] at h
    exact Except.noConfusion h
  · cases u
    rfl

/-- C1 counterexample: the claim "every accepted buffer contains a
Service-Name tag" is false.  A PADI whose 4-byte payload is a single AC-Name
tag and no End-Of-List parses successfully, and its tag sequence contains no
Service-Name tag. -/
theorem C1_counterexample :
    Header.from_buffer [0x11, 0x09, 0, 0, 0, 4, 1, 2, 0, 0] =
      .ok [0x11, 0x09, 0, 0, 0, 4, 1, 2, 0, 0] ∧
    Header.tag_iter [0x11, 0x09, 0, 0, 0, 4, 1, 2, 0, 0] = some [Tag.acName []] ∧
    ([Tag.acName []].any isServiceName) = false := by
  refine ⟨by decide, by decide, by decide⟩

/-- C1 (amended): the Service-Name requirement is enforced only when the
payload length is zero or when the tag walk reaches an End-Of-List tag.
Part 1: every accepted buffer whose tag sequence contains End-Of-List
contains a Service-Name tag.  Part 2: a buffer with valid version/type byte
and code and payload length 0 fails with `MissingServiceName`.  (A payload
not terminated by End-Of-List is accepted without any Service-Name tag; see
the counterexample.) -/
theorem C1_service_name_rule :
    (∀ (buffer out : List Nat) (ts : List Tag),
        Header.from_buffer buffer = .ok out →
        Header.tag_iter buffer = some ts →
        Tag.endOfList ∈ ts →
        ∃ m, Tag.serviceName m ∈ ts) ∧
    (∀ buffer : List Nat,
        6 ≤ buffer.length →
        buffer.getD 0 0 = 0x11 →
        (∃ c, Code.try_from (buffer.getD 1 0) = .ok c) →
        readU16 buffer 4 = 0 →
        Header.from_buffer buffer = .error .MissingServiceName) := by
  constructor
  · intro buffer out ts hfb hti hmem
    have htail := from_buffer_with_code_ok_tail buffer none out hfb
    have hv := from_buffer_tail_validate buffer out htail
    unfold Header.tag_iter at hti
    by_cases hg : 6 + readU16 buffer 4 < 65536 ∧ Header.len buffer ≤ buffer.length
    · rw [if_pos hg] at hti
      have hlen : Header.len buffer = 6 + readU16 buffer 4 := Nat.mod_eq_of_lt hg.1
      rw [hlen] at hti
      have hrun := validate_sn_of_eol ((slice buffer 6 (6 + readU16 buffer 4)).length + 1)
        (slice buffer 6 (6 + readU16 buffer 4)) DupFlags.init
        ((slice buffer 6 (6 + readU16 buffer 4)).length % 65536)
        ((slice buffer 6 (6 + readU16 buffer 4)).length + 1) ts
        (Nat.lt_succ_self _) hv hti hmem
      rcases hrun with hL | hR
      · simp [DupFlags.init] at hL
      · exact hR
    · rw [if_neg hg] at hti
      exact Option.noConfusion hti
  · intro buffer h6 h0 hcode hL0
    obtain ⟨c, hc⟩ := hcode
    unfold Header.from_buffer Header.from_buffer_with_code
    rw [if_neg (by omega), if_neg (by rw [h0]; decide), hc]
    show Header.from_buffer_tail buffer = _
    unfold Header.from_buffer_tail
    rw [hL0, if_neg (by omega), if_pos rfl]

/-- Witness for C1 at concrete frames: an accepted EOL-terminated PADI
contains Service-Name; the 6-byte zero-length PADI fails
`MissingServiceName`. -/
theorem C1_service_name_rule_witness :
    (∃ m, Tag.serviceName m ∈ [Tag.serviceName [], Tag.endOfList]) ∧
    Header.from_buffer [0x11, 0x09, 0, 0, 0, 0] = .error .MissingServiceName :=
  ⟨C1_service_name_rule.1 [0x11, 0x09, 0, 0, 0, 8, 1, 1, 0, 0, 0, 0, 0, 0]
      [0x11, 0x09, 0, 0, 0, 8, 1, 1, 0, 0, 0, 0, 0, 0]
      [Tag.serviceName [], Tag.endOfList] (by decide) (by decide) (by decide),
   C1_service_name_rule.2 [0x11, 0x09, 0, 0, 0, 0] (by decide) (by decide)
      ⟨.padi, by decide⟩ (by decide)⟩

theorem eol_not_mem_dropLast {T : List Tag} (h : Tag.endOfList ∉ T) :
    Tag.endOfList ∉ T.dropLast :=
  fun hm => h (List.dropLast_subset T hm)

/-- Shared helper: the exact `PayloadLengthOutOfBound` error, with the
`actual_packet_length` field truncated to 16 bits, whenever the claimed
payload does not fit the buffer. -/
theorem payload_length_oob (buffer : List Nat) (c : Code)
    (h6 : 6 ≤ buffer.length)
    (h0 : buffer.getD 0 0 = 0x11)
    (hc : Code.try_from (buffer.getD 1 0) = .ok c)
    (hb : buffer.length < readU16 buffer 4 + 6) :
    Header.from_buffer buffer =
      .error (.PayloadLengthOutOfBound (buffer.length % 65536) (readU16 buffer 4)) := by
  unfold Header.from_buffer Header.from_buffer_with_code
  rw [if_neg (by omega), if_neg (by rw [h0]; decide), hc]
  show Header.from_buffer_tail buffer = _
  unfold Header.from_buffer_tail
  rw [if_pos (by omega)]

/-- C5: duplicate detection.  Part 1: parsing a frame whose (well-formed,
EOL-free) payload contains a tag of an at-most-once type `τ` twice — every
other at-most-once type appearing at most once — fails with exactly
`DuplicateTag τ`.  Part 2: a frame whose at-most-once types are not repeated
parses successfully, with no constraint on how often the remaining types
occur. -/
theorem C5_duplicate_detection :
    (∀ (τ : Nat) (c : Code) (s : Nat) (T : List Tag) (tail : List Nat),
        (∀ t ∈ T, t.wf) →
        τ ∈ dupTagTypes →
        2 ≤ countTagType τ T →
        (∀ σ ∈ dupTagTypes, σ ≠ τ → countTagType σ T ≤ 1) →
        Tag.endOfList ∉ T →
        (flatTags T).length ≤ 65535 →
        Header.from_buffer (hdrBuf c s (flatTags T) tail) = .error (.DuplicateTag τ)) ∧
    (∀ (c : Code) (s : Nat) (T : List Tag) (tail : List Nat),
        (∀ t ∈ T, t.wf) →
        (∀ σ ∈ dupTagTypes, countTagType σ T ≤ 1) →
        Tag.endOfList ∉ T →
        T ≠ [] →
        (flatTags T).length ≤ 65535 →
        Header.from_buffer (hdrBuf c s (flatTags T) tail) =
          .ok (hdrBuf c s (flatTags T) tail)) := by
  constructor
  · intro τ c s T tail hwf hτ hge hothers heol hfit
    have hne : T ≠ [] := by
      intro hz
      subst hz
      simp [countTagType] at hge
    rw [from_buffer_hdrBuf c s (flatTags T) tail hfit (flatTags_ne_nil T hne)]
    have hv : Header.validate_tags (flatTags T) = .error (.DuplicateTag τ) := by
      unfold Header.validate_tags
      apply validateLoop_flat_dup τ T _ _ DupFlags.init hwf hτ _ _ heol (Nat.lt_succ_self _)
      · rw [flagFor_init]
        simpa using hge
      · intro σ hσ hστ
        rw [flagFor_init]
        simpa using hothers σ hσ hστ
    rw [hv]
  · intro c s T tail hwf hdup heol hne hfit
    rw [from_buffer_hdrBuf c s (flatTags T) tail hfit (flatTags_ne_nil T hne)]
    have hv := validate_tags_flat_ok T hwf hdup (eol_not_mem_dropLast heol)
      (fun hl => by
        obtain ⟨hnn, heq⟩ := List.mem_getLast?_eq_getLast (l := T) (by rw [hl]; rfl)
        exact absurd (heq ▸ List.getLast_mem hnn) heol)
    rw [hv]

/-- Witness for C5: a duplicated AC-Cookie is rejected with
`DuplicateTag 0x0104`; a duplicated unknown-type tag is accepted. -/
theorem C5_duplicate_detection_witness :
    Header.from_buffer
        (hdrBuf .padi 0 (flatTags [Tag.acCookie [97], Tag.acCookie [97]]) []) =
      .error (.DuplicateTag 0x0104) ∧
    Header.from_buffer
        (hdrBuf .padi 0 (flatTags [Tag.unknown 0x999 [], Tag.unknown 0x999 []]) []) =
      .ok (hdrBuf .padi 0 (flatTags [Tag.unknown 0x999 [], Tag.unknown 0x999 []]) []) :=
  ⟨C5_duplicate_detection.1 0x0104 .padi 0 [Tag.acCookie [97], Tag.acCookie [97]] []
      (by decide) (by decide) (by decide) (by decide) (by decide) (by decide),
   C5_duplicate_detection.2 .padi 0 [Tag.unknown 0x999 [], Tag.unknown 0x999 []] []
      (by decide) (by decide) (by decide) (by decide) (by decide)⟩

/-- C6 counterexample: on a 65540-byte buffer whose payload-length field is
65535, `from_buffer` reports `PayloadLengthOutOfBound` with
`actual_packet_length = 4` — the buffer length truncated to 16 bits (`as
u16`), not the actual packet length 65540 the claim promises. -/
theorem C6_counterexample :
    Header.from_buffer cbuf6 = .error (.PayloadLengthOutOfBound 4 65535) ∧
    cbuf6.length = 65540 ∧ readU16 cbuf6 4 = 65535 ∧ (4 : Nat) ≠ 65540 := by
  have hlen : cbuf6.length = 65540 := by
    unfold cbuf6
    rw [List.length_cons, List.length_cons, List.length_cons, List.length_cons,
      List.length_cons, List.length_cons, List.length_replicate]
  have h4 : readU16 cbuf6 4 = 65535 := rfl
  refine ⟨?_, hlen, h4, by decide⟩
  have := payload_length_oob cbuf6 .padi (by omega) rfl (by rfl) (by rw [hlen, h4]; omega)
  rw [hlen, h4] at this
  simpa using this

/-- C6 (amended): for every buffer of length `n ≥ 6` with a valid
version/type byte and code whose payload-length field `L` satisfies
`6 + L > n`, `from_buffer` returns `PayloadLengthOutOfBound` carrying
`n mod 2^16` (the `as u16` cast of the packet length; equal to `n` whenever
`n < 2^16`, as in the 10-byte instance of the claim) and `L`. -/
theorem C6_payload_length_out_of_bound (buffer : List Nat) (c : Code)
    (h6 : 6 ≤ buffer.length)
    (h0 : buffer.getD 0 0 = 0x11)
    (hc : Code.try_from (buffer.getD 1 0) = .ok c)
    (hb : buffer.length < readU16 buffer 4 + 6) :
    Header.from_buffer buffer =
      .error (.PayloadLengthOutOfBound (buffer.length % 65536) (readU16 buffer 4)) :=
  payload_length_oob buffer c h6 h0 hc hb

/-- Witness for C6 at the specification's own 10-byte scenario S4:
`11 09 00 00 02 00 01 01 00 00` yields
`PayloadLengthOutOfBound{actual: 10, payload: 512}`. -/
theorem C6_payload_length_out_of_bound_witness :
    Header.from_buffer [0x11, 0x09, 0, 0, 2, 0, 1, 1, 0, 0] =
      .error (.PayloadLengthOutOfBound 10 512) := by
  have := C6_payload_length_out_of_bound [0x11, 0x09, 0, 0, 2, 0, 1, 1, 0, 0] .padi
    (by decide) (by decide) (by decide) (by decide)
  simpa using this

theorem readU16_set_len (X : List Nat) (v : Nat) (hX : 4 ≤ X.length) :
    readU16 (Header.set_len X v) 4 = v % 65536 := by
  rcases X with _ | ⟨a, X⟩
  · simp at hX
  rcases X with _ | ⟨b, X⟩
  · simp at hX
  rcases X with _ | ⟨c, X⟩
  · simp at hX
  rcases X with _ | ⟨d, X⟩
  · simp at hX
  show 256 * (v / 256 % 256) + v % 256 = v % 65536
  omega

theorem encBytes_length_ge (t : Tag) : 4 ≤ (encBytes t).length := by
  rw [encBytes_length]
  omega

/-- C8 (amended): when `add_tag` succeeds and the updated payload length
`len b - 6 + tag width` is at most 65529 — so neither `set_len`'s `as u16`
store nor the u16 addition inside the subsequent `len()` wraps —
`pppoe.len()` grows by exactly the tag's on-wire width —
`(encBytes t).length`, i.e. 6 bytes for a PPP-Max-Payload tag and
`4 + value length` for the other writable tags — and the payload-length
field at bytes 4..6 is updated to include the appended tag.  (Without the
bound the field is truncated; see the counterexample.) -/
theorem C8_add_tag_length (b : List Nat) (t : Tag) (out : List Nat)
    (h : Header.add_tag b t = some (.ok out))
    (hfit : Header.len b - 6 + (encBytes t).length ≤ 65529) :
    Header.len out = Header.len b + (encBytes t).length ∧
      readU16 out 4 = (Header.len b - 6) + (encBytes t).length := by
  simp only [Header.add_tag] at h
  by_cases hg : 6 + readU16 b 4 < 65536 ∧ Header.len b ≤ b.length
  · rw [if_pos hg] at h
    have hlen6 : Header.len b = 6 + readU16 b 4 := Nat.mod_eq_of_lt hg.1
    rcases hw : Tag.write t (b.drop (Header.len b)) with _ | e | ⟨n, w⟩
    · rw [hw] at h
      exact Option.noConfusion h
    · simp only [hw] at h
      exact Except.noConfusion (Option.some.inj h)
    · simp only [hw] at h
      have hres := Except.ok.inj (Option.some.inj h)
      obtain ⟨hn, hle, hwshape⟩ := Tag.write_inv t (b.drop (Header.len b)) n w hw
      have henc4 := encBytes_length_ge t
      have hdlen : (b.drop (Header.len b)).length = b.length - Header.len b :=
        List.length_drop _ _
      have hpl6 : 6 ≤ Header.len b := by omega
      have hblen : Header.len b + 4 ≤ b.length := by omega
      have hXlen : 4 ≤ (b.take (Header.len b) ++ w).length := by
        rw [List.length_append, List.length_take]
        omega
      have hr : readU16 out 4 = (Header.len b - 6 + n) % 65536 := by
        rw [← hres]
        exact readU16_set_len _ _ hXlen
      rw [hn] at hr
      have hmod : (Header.len b - 6 + (encBytes t).length) % 65536 =
          Header.len b - 6 + (encBytes t).length := Nat.mod_eq_of_lt (by omega)
      rw [hmod] at hr
      refine ⟨?_, hr⟩
      show (6 + readU16 out 4) % 65536 = Header.len b + (encBytes t).length
      rw [hr]
      omega
  · rw [if_neg hg] at h
    exact Option.noConfusion h

/-- Witness for C8: adding a 1-byte Service-Name tag to a fresh 20-byte PADI
grows `len()` from 6 to 11 and sets the length field to 5. -/
theorem C8_add_tag_length_witness :
    Header.len ([0x11, 0x09, 0, 0, 0, 5, 1, 1, 0, 1, 97] ++ List.replicate 9 0) =
      Header.len ([0x11, 0x09, 0, 0, 0, 0] ++ List.replicate 14 0) +
        (encBytes (Tag.serviceName [97])).length ∧
    readU16 ([0x11, 0x09, 0, 0, 0, 5, 1, 1, 0, 1, 97] ++ List.replicate 9 0) 4 =
      (Header.len ([0x11, 0x09, 0, 0, 0, 0] ++ List.replicate 14 0) - 6) +
        (encBytes (Tag.serviceName [97])).length :=
  C8_add_tag_length ([0x11, 0x09, 0, 0, 0, 0] ++ List.replicate 14 0)
    (Tag.serviceName [97]) ([0x11, 0x09, 0, 0, 0, 5, 1, 1, 0, 1, 97] ++ List.replicate 9 0)
    (by decide) (by decide)

/-- C8 counterexample: on a 65542-byte buffer whose payload-length field is
65529 (`len() = 65535`), adding a 7-byte Service-Name tag succeeds —
`packet_length - 6 + tag_length = 65536` is computed in usize, so no
addition overflows and debug and release builds agree — but `set_len`'s
`as u16` cast stores it as 0: `len()` drops from 65535 to 6 instead of
growing by the tag's 7-byte on-wire width. -/
theorem C8_counterexample :
    (Header.add_tag cbuf8 (Tag.serviceName [97, 98, 99])).map (Except.map Header.len) =
      some (.ok 6) ∧
    Header.len cbuf8 = 65535 ∧
    (encBytes (Tag.serviceName [97, 98, 99])).length = 7 ∧ (6 : Nat) ≠ 65535 + 7 := by
  have hlen65 : Header.len cbuf8 = 65535 := rfl
  have hblen : cbuf8.length = 65542 := by
    show (0 :: 0 :: 0 :: 0 :: 255 :: 249 :: List.replicate 65536 0).length = 65542
    rw [List.length_cons, List.length_cons, List.length_cons, List.length_cons,
      List.length_cons, List.length_cons, List.length_replicate]
  have hg : 6 + readU16 cbuf8 4 < 65536 ∧ Header.len cbuf8 ≤ cbuf8.length := by
    refine ⟨by decide, ?_⟩
    rw [hlen65, hblen]
    omega
  have hdrop : cbuf8.drop 65535 = List.replicate 7 0 := by
    show (0 :: 0 :: 0 :: 0 :: 255 :: 249 :: List.replicate 65536 0).drop (65529 + 6) =
      List.replicate 7 0
    rw [drop_cons6, List.drop_replicate]
  have hw : Tag.write (Tag.serviceName [97, 98, 99]) (List.replicate 7 0) =
      some (.ok (7, [1, 1, 0, 3, 97, 98, 99])) := by decide
  have hadd : Header.add_tag cbuf8 (Tag.serviceName [97, 98, 99]) =
      some (.ok (Header.set_len (cbuf8.take 65535 ++ [1, 1, 0, 3, 97, 98, 99]) 65536)) := by
    simp only [Header.add_tag]
    rw [if_pos hg]
    simp only [hlen65, hdrop, hw]
  have hctake : (cbuf8.take 65535).length = 65535 := by
    rw [List.length_take, hblen]
    omega
  have hXlen : 4 ≤ (cbuf8.take 65535 ++ [1, 1, 0, 3, 97, 98, 99]).length := by
    rw [List.length_append, hctake]
    omega
  have hout : Header.len
      (Header.set_len (cbuf8.take 65535 ++ [1, 1, 0, 3, 97, 98, 99]) 65536) = 6 := by
    show (6 + readU16
      (Header.set_len (cbuf8.take 65535 ++ [1, 1, 0, 3, 97, 98, 99]) 65536) 4) % 65536 = 6
    rw [readU16_set_len _ _ hXlen]
  refine ⟨?_, hlen65, by decide, by decide⟩
  rw [hadd]
  simp [Except.map, hout]

/-- A completed `create_padr_from_pado` loop is exactly `add_tag` folded over
the kept tags (Service-Name, Relay-Session-ID, AC-Cookie), and the two flags
record whether a Service-Name / AC-Name tag was seen. -/
theorem padrLoop_spec (esn ean : Option (List Nat)) (T : List Tag) :
    ∀ (buf out : List Nat) (h1 h2 h1o h2o : Bool),
    padrLoop esn ean T buf h1 h2 = some (.ok (out, h1o, h2o)) →
    addAll buf (T.filter keepForPadr) = some (.ok out) ∧
      h1o = (h1 || T.any isServiceName) ∧ h2o = (h2 || T.any isAcName) := by
  induction T with
  | nil =>
    intro buf out h1 h2 h1o h2o h
    simp only [padrLoop, Option.some.injEq, Except.ok.injEq, Prod.mk.injEq] at h
    obtain ⟨rfl, rfl, rfl⟩ := h
    refine ⟨by simp [addAll], by simp, by simp⟩
  | cons t ts ih =>
    intro buf out h1 h2 h1o h2o h
    cases t with
    | serviceName m =>
      simp only [padrLoop] at h
      by_cases hmm : nameMismatch esn m
      · rw [if_pos hmm] at h
        exact Except.noConfusion (Option.some.inj h)
      · rw [if_neg hmm] at h
        rcases ha : Header.add_tag buf (.serviceName m) with _ | e | b2
        · rw [ha] at h
          exact Option.noConfusion h
        · simp only [ha] at h
          exact Except.noConfusion (Option.some.inj h)
        · simp only [ha] at h
          obtain ⟨haa, hf1, hf2⟩ := ih b2 out true h2 h1o h2o h
          have hfil : (Tag.serviceName m :: ts).filter keepForPadr =
              Tag.serviceName m :: ts.filter keepForPadr := by
            simp [List.filter, keepForPadr]
          refine ⟨?_, ?_, ?_⟩
          · rw [hfil]
            simp only [addAll, ha]
            exact haa
          · rw [hf1]
            simp [isServiceName]
          · rw [hf2]
            simp [isAcName]
    | acName m =>
      simp only [padrLoop] at h
      by_cases hmm : nameMismatch ean m
      · rw [if_pos hmm] at h
        exact Except.noConfusion (Option.some.inj h)
      · rw [if_neg hmm] at h
        obtain ⟨haa, hf1, hf2⟩ := ih buf out h1 true h1o h2o h
        have hfil : (Tag.acName m :: ts).filter keepForPadr = ts.filter keepForPadr := by
          simp [List.filter, keepForPadr]
        refine ⟨by rw [hfil]; exact haa, ?_, ?_⟩
        · rw [hf1]
          simp [isServiceName]
        · rw [hf2]
          simp [isAcName]
    | relaySessionId v =>
      simp only [padrLoop] at h
      rcases ha : Header.add_tag buf (.relaySessionId v) with _ | e | b2
      · rw [ha] at h
        exact Option.noConfusion h
      · simp only [ha] at h
        exact Except.noConfusion (Option.some.inj h)
      · simp only [ha] at h
        obtain ⟨haa, hf1, hf2⟩ := ih b2 out h1 h2 h1o h2o h
        have hfil : ((Tag.relaySessionId v) :: ts).filter keepForPadr =
            (Tag.relaySessionId v) :: ts.filter keepForPadr := by
          simp [List.filter, keepForPadr]
        refine ⟨?_, ?_, ?_⟩
        · rw [hfil]
          simp only [addAll, ha]
          exact haa
        · rw [hf1]
          simp [isServiceName]
        · rw [hf2]
          simp [isAcName]
    | acCookie v =>
      simp only [padrLoop] at h
      rcases ha : Header.add_tag buf (.acCookie v) with _ | e | b2
      · rw [ha] at h
        exact Option.noConfusion h
      · simp only [ha] at h
        exact Except.noConfusion (Option.some.inj h)
      · simp only [ha] at h
        obtain ⟨haa, hf1, hf2⟩ := ih b2 out h1 h2 h1o h2o h
        have hfil : ((Tag.acCookie v) :: ts).filter keepForPadr =
            (Tag.acCookie v) :: ts.filter keepForPadr := by
          simp [List.filter, keepForPadr]
        refine ⟨?_, ?_, ?_⟩
        · rw [hfil]
          simp only [addAll, ha]
          exact haa
        · rw [hf1]
          simp [isServiceName]
        · rw [hf2]
          simp [isAcName]
    | endOfList =>
      simp only [padrLoop] at h
      obtain ⟨haa, hf1, hf2⟩ := ih buf out h1 h2 h1o h2o h
      have hfil : ((Tag.endOfList) :: ts).filter keepForPadr = ts.filter keepForPadr := by
        simp [List.filter, keepForPadr]
      refine ⟨by rw [hfil]; exact haa, ?_, ?_⟩
      · rw [hf1]
        simp [isServiceName]
      · rw [hf2]
        simp [isAcName]
    | hostUniq v =>
      simp only [padrLoop] at h
      obtain ⟨haa, hf1, hf2⟩ := ih buf out h1 h2 h1o h2o h
      have hfil : ((Tag.hostUniq v) :: ts).filter keepForPadr = ts.filter keepForPadr := by
        simp [List.filter, keepForPadr]
      refine ⟨by rw [hfil]; exact haa, ?_, ?_⟩
      · rw [hf1]
        simp [isServiceName]
      · rw [hf2]
        simp [isAcName]
    | vendorSpecific v =>
      simp only [padrLoop] at h
      obtain ⟨haa, hf1, hf2⟩ := ih buf out h1 h2 h1o h2o h
      have hfil : ((Tag.vendorSpecific v) :: ts).filter keepForPadr = ts.filter keepForPadr := by
        simp [List.filter, keepForPadr]
      refine ⟨by rw [hfil]; exact haa, ?_, ?_⟩
      · rw [hf1]
        simp [isServiceName]
      · rw [hf2]
        simp [isAcName]
    | serviceNameError v =>
      simp only [padrLoop] at h
      obtain ⟨haa, hf1, hf2⟩ := ih buf out h1 h2 h1o h2o h
      have hfil : ((Tag.serviceNameError v) :: ts).filter keepForPadr = ts.filter keepForPadr := by
        simp [List.filter, keepForPadr]
      refine ⟨by rw [hfil]; exact haa, ?_, ?_⟩
      · rw [hf1]
        simp [isServiceName]
      · rw [hf2]
        simp [isAcName]
    | acSystemError v =>
      simp only [padrLoop] at h
      obtain ⟨haa, hf1, hf2⟩ := ih buf out h1 h2 h1o h2o h
      have hfil : ((Tag.acSystemError v) :: ts).filter keepForPadr = ts.filter keepForPadr := by
        simp [List.filter, keepForPadr]
      refine ⟨by rw [hfil]; exact haa, ?_, ?_⟩
      · rw [hf1]
        simp [isServiceName]
      · rw [hf2]
        simp [isAcName]
    | genericError v =>
      simp only [padrLoop] at h
      obtain ⟨haa, hf1, hf2⟩ := ih buf out h1 h2 h1o h2o h
      have hfil : ((Tag.genericError v) :: ts).filter keepForPadr = ts.filter keepForPadr := by
        simp [List.filter, keepForPadr]
      refine ⟨by rw [hfil]; exact haa, ?_, ?_⟩
      · rw [hf1]
        simp [isServiceName]
      · rw [hf2]
        simp [isAcName]
    | pppMaxMtu mtu =>
      simp only [padrLoop] at h
      obtain ⟨haa, hf1, hf2⟩ := ih buf out h1 h2 h1o h2o h
      have hfil : ((Tag.pppMaxMtu mtu) :: ts).filter keepForPadr = ts.filter keepForPadr := by
        simp [List.filter, keepForPadr]
      refine ⟨by rw [hfil]; exact haa, ?_, ?_⟩
      · rw [hf1]
        simp [isServiceName]
      · rw [hf2]
        simp [isAcName]
    | credits a b =>
      simp only [padrLoop] at h
      obtain ⟨haa, hf1, hf2⟩ := ih buf out h1 h2 h1o h2o h
      have hfil : ((Tag.credits a b) :: ts).filter keepForPadr = ts.filter keepForPadr := by
        simp [List.filter, keepForPadr]
      refine ⟨by rw [hfil]; exact haa, ?_, ?_⟩
      · rw [hf1]
        simp [isServiceName]
      · rw [hf2]
        simp [isAcName]
    | metrics v =>
      simp only [padrLoop] at h
      obtain ⟨haa, hf1, hf2⟩ := ih buf out h1 h2 h1o h2o h
      have hfil : ((Tag.metrics v) :: ts).filter keepForPadr = ts.filter keepForPadr := by
        simp [List.filter, keepForPadr]
      refine ⟨by rw [hfil]; exact haa, ?_, ?_⟩
      · rw [hf1]
        simp [isServiceName]
      · rw [hf2]
        simp [isAcName]
    | sequenceNumber n =>
      simp only [padrLoop] at h
      obtain ⟨haa, hf1, hf2⟩ := ih buf out h1 h2 h1o h2o h
      have hfil : ((Tag.sequenceNumber n) :: ts).filter keepForPadr = ts.filter keepForPadr := by
        simp [List.filter, keepForPadr]
      refine ⟨by rw [hfil]; exact haa, ?_, ?_⟩
      · rw [hf1]
        simp [isServiceName]
      · rw [hf2]
        simp [isAcName]
    | creditScaleFactor n =>
      simp only [padrLoop] at h
      obtain ⟨haa, hf1, hf2⟩ := ih buf out h1 h2 h1o h2o h
      have hfil : ((Tag.creditScaleFactor n) :: ts).filter keepForPadr = ts.filter keepForPadr := by
        simp [List.filter, keepForPadr]
      refine ⟨by rw [hfil]; exact haa, ?_, ?_⟩
      · rw [hf1]
        simp [isServiceName]
      · rw [hf2]
        simp [isAcName]
    | unknown u v =>
      simp only [padrLoop] at h
      obtain ⟨haa, hf1, hf2⟩ := ih buf out h1 h2 h1o h2o h
      have hfil : ((Tag.unknown u v) :: ts).filter keepForPadr = ts.filter keepForPadr := by
        simp [List.filter, keepForPadr]
      refine ⟨by rw [hfil]; exact haa, ?_, ?_⟩
      · rw [hf1]
        simp [isServiceName]
      · rw [hf2]
        simp [isAcName]

/-- Running the PADR loop over an appended tag list first replays the prefix
run, then continues from its final state. -/
theorem padrLoop_append (esn ean : Option (List Nat)) (T1 : List Tag) :
    ∀ (T2 : List Tag) (buf out : List Nat) (h1 h2 h1o h2o : Bool),
    padrLoop esn ean T1 buf h1 h2 = some (.ok (out, h1o, h2o)) →
    padrLoop esn ean (T1 ++ T2) buf h1 h2 = padrLoop esn ean T2 out h1o h2o := by
  induction T1 with
  | nil =>
    intro T2 buf out h1 h2 h1o h2o h
    simp only [padrLoop, Option.some.injEq, Except.ok.injEq, Prod.mk.injEq] at h
    obtain ⟨rfl, rfl, rfl⟩ := h
    simp
  | cons t ts ih =>
    intro T2 buf out h1 h2 h1o h2o h
    cases t with
    | serviceName m =>
      simp only [padrLoop] at h
      simp only [List.cons_append, padrLoop]
      by_cases hmm : nameMismatch esn m
      · rw [if_pos hmm] at h
        exact Except.noConfusion (Option.some.inj h)
      · rw [if_neg hmm] at h ⊢
        rcases ha : Header.add_tag buf (.serviceName m) with _ | e | b2
        · rw [ha] at h
          exact Option.noConfusion h
        · simp only [ha] at h
          exact Except.noConfusion (Option.some.inj h)
        · simp only [ha] at h
          simp only [ha]
          exact ih T2 b2 out true h2 h1o h2o h
    | acName m =>
      simp only [padrLoop] at h
      simp only [List.cons_append, padrLoop]
      by_cases hmm : nameMismatch ean m
      · rw [if_pos hmm] at h
        exact Except.noConfusion (Option.some.inj h)
      · rw [if_neg hmm] at h ⊢
        exact ih T2 buf out h1 true h1o h2o h
    | relaySessionId v =>
      simp only [padrLoop] at h
      simp only [List.cons_append, padrLoop]
      rcases ha : Header.add_tag buf (.relaySessionId v) with _ | e | b2
      · rw [ha] at h
        exact Option.noConfusion h
      · simp only [ha] at h
        exact Except.noConfusion (Option.some.inj h)
      · simp only [ha] at h
        exact ih T2 b2 out h1 h2 h1o h2o h
    | acCookie v =>
      simp only [padrLoop] at h
      simp only [List.cons_append, padrLoop]
      rcases ha : Header.add_tag buf (.acCookie v) with _ | e | b2
      · rw [ha] at h
        exact Option.noConfusion h
      · simp only [ha] at h
        exact Except.noConfusion (Option.some.inj h)
      · simp only [ha] at h
        exact ih T2 b2 out h1 h2 h1o h2o h
    | endOfList =>
      simp only [padrLoop] at h
      simp only [List.cons_append, padrLoop]
      exact ih T2 buf out h1 h2 h1o h2o h
    | hostUniq v =>
      simp only [padrLoop] at h
      simp only [List.cons_append, padrLoop]
      exact ih T2 buf out h1 h2 h1o h2o h
    | vendorSpecific v =>
      simp only [padrLoop] at h
      simp only [List.cons_append, padrLoop]
      exact ih T2 buf out h1 h2 h1o h2o h
    | serviceNameError v =>
      simp only [padrLoop] at h
      simp only [List.cons_append, padrLoop]
      exact ih T2 buf out h1 h2 h1o h2o h
    | acSystemError v =>
      simp only [padrLoop] at h
      simp only [List.cons_append, padrLoop]
      exact ih T2 buf out h1 h2 h1o h2o h
    | genericError v =>
      simp only [padrLoop] at h
      simp only [List.cons_append, padrLoop]
      exact ih T2 buf out h1 h2 h1o h2o h
    | pppMaxMtu mtu =>
      simp only [padrLoop] at h
      simp only [List.cons_append, padrLoop]
      exact ih T2 buf out h1 h2 h1o h2o h
    | credits a b =>
      simp only [padrLoop] at h
      simp only [List.cons_append, padrLoop]
      exact ih T2 buf out h1 h2 h1o h2o h
    | metrics v =>
      simp only [padrLoop] at h
      simp only [List.cons_append, padrLoop]
      exact ih T2 buf out h1 h2 h1o h2o h
    | sequenceNumber n =>
      simp only [padrLoop] at h
      simp only [List.cons_append, padrLoop]
      exact ih T2 buf out h1 h2 h1o h2o h
    | creditScaleFactor n =>
      simp only [padrLoop] at h
      simp only [List.cons_append, padrLoop]
      exact ih T2 buf out h1 h2 h1o h2o h
    | unknown u v =>
      simp only [padrLoop] at h
      simp only [List.cons_append, padrLoop]
      exact ih T2 buf out h1 h2 h1o h2o h

theorem create_padr_ok (buffer padr0 : List Nat)
    (h : Header.create_padr buffer = .ok padr0) :
    padr0 = hdrBuf .padr 0 [] (buffer.drop 6) := by
  unfold Header.create_padr at h
  by_cases h6 : buffer.length < 6
  · rw [Header.create_packet, if_pos h6] at h
    exact Except.noConfusion h
  · rw [create_packet_hdrBuf buffer .padr 0 h6] at h
    exact (Except.ok.inj h).symm

/-- C7: `create_padr_from_pado`.
1. On success the result is a fresh PADR: version/type `0x11`, code PADR,
   session id 0, and its payload is exactly the concatenated verbatim
   encodings of the PADO's Service-Name, Relay-Session-ID and AC-Cookie tags
   in order (AC-Name omitted); the PADO had both a Service-Name and an
   AC-Name tag.
2. If the loop completes without copying a Service-Name (the PADO has none),
   the call fails with `MissingServiceName`.
3. If it completes having seen a Service-Name but no AC-Name, it fails with
   `MissingAcName`.
4. If an expected service name is given and the PADO's Service-Name tag
   differs, the call fails with `ServiceNameMismatch`.
5. If an expected AC name is given and the PADO's AC-Name tag differs, the
   call fails with `AcNameMismatch`. -/
theorem C7_create_padr_from_pado :
    (∀ (buffer pado out : List Nat) (esn ean : Option (List Nat)) (T : List Tag),
        Header.tag_iter pado = some T →
        (flatTags (T.filter keepForPadr)).length ≤ 65535 →
        Header.create_padr_from_pado buffer pado esn ean = some (.ok out) →
        out.take 4 = [0x11, 0x19, 0, 0] ∧
          readU16 out 4 = (flatTags (T.filter keepForPadr)).length ∧
          slice out 6 (6 + (flatTags (T.filter keepForPadr)).length) =
            flatTags (T.filter keepForPadr) ∧
          T.any isServiceName = true ∧ T.any isAcName = true) ∧
    (∀ (buffer pado : List Nat) (esn ean : Option (List Nat)) (T : List Tag)
        (padr0 res : List Nat) (hsn han : Bool),
        Header.create_padr buffer = .ok padr0 →
        Header.tag_iter pado = some T →
        padrLoop esn ean T padr0 false false = some (.ok (res, hsn, han)) →
        T.any isServiceName = false →
        Header.create_padr_from_pado buffer pado esn ean =
          some (.error .MissingServiceName)) ∧
    (∀ (buffer pado : List Nat) (esn ean : Option (List Nat)) (T : List Tag)
        (padr0 res : List Nat) (hsn han : Bool),
        Header.create_padr buffer = .ok padr0 →
        Header.tag_iter pado = some T →
        padrLoop esn ean T padr0 false false = some (.ok (res, hsn, han)) →
        T.any isServiceName = true →
        T.any isAcName = false →
        Header.create_padr_from_pado buffer pado esn ean = some (.error .MissingAcName)) ∧
    (∀ (buffer pado : List Nat) (sname : List Nat) (ean : Option (List Nat))
        (T1 T2 : List Tag) (m : List Nat) (padr0 buf1 : List Nat) (x1 x2 : Bool),
        Header.create_padr buffer = .ok padr0 →
        Header.tag_iter pado = some (T1 ++ Tag.serviceName m :: T2) →
        padrLoop (some sname) ean T1 padr0 false false = some (.ok (buf1, x1, x2)) →
        m ≠ sname →
        Header.create_padr_from_pado buffer pado (some sname) ean =
          some (.error .ServiceNameMismatch)) ∧
    (∀ (buffer pado : List Nat) (esn : Option (List Nat)) (aname : List Nat)
        (T1 T2 : List Tag) (m : List Nat) (padr0 buf1 : List Nat) (x1 x2 : Bool),
        Header.create_padr buffer = .ok padr0 →
        Header.tag_iter pado = some (T1 ++ Tag.acName m :: T2) →
        padrLoop esn (some aname) T1 padr0 false false = some (.ok (buf1, x1, x2)) →
        m ≠ aname →
        Header.create_padr_from_pado buffer pado esn (some aname) =
          some (.error .AcNameMismatch)) := by
  refine ⟨?_, ?_, ?_, ?_, ?_⟩
  · intro buffer pado out esn ean T htag hfit h
    unfold Header.create_padr_from_pado at h
    rcases hcp : Header.create_padr buffer with e | padr0
    · rw [hcp] at h
      exact Except.noConfusion (Option.some.inj h)
    simp only [hcp, htag] at h
    rcases hloop : padrLoop esn ean T padr0 false false with _ | e | ⟨padr1, hsn, han⟩
    · rw [hloop] at h
      exact Option.noConfusion h
    · simp only [hloop] at h
      exact Except.noConfusion (Option.some.inj h)
    simp only [hloop] at h
    by_cases hs : hsn = false
    · rw [if_pos hs] at h
      exact Except.noConfusion (Option.some.inj h)
    rw [if_neg hs] at h
    by_cases ha2 : han = false
    · rw [if_pos ha2] at h
      exact Except.noConfusion (Option.some.inj h)
    rw [if_neg ha2] at h
    have hout : padr1 = out := Except.ok.inj (Option.some.inj h)
    subst hout
    obtain ⟨haa, hf1, hf2⟩ := padrLoop_spec esn ean T padr0 padr1 false false hsn han hloop
    have hp0 := create_padr_ok buffer padr0 hcp
    subst hp0
    obtain ⟨_, hshape⟩ := addAll_hdrBuf (T.filter keepForPadr) .padr 0 [] (buffer.drop 6)
      padr1 (by simpa using hfit) haa
    rw [List.nil_append] at hshape
    subst hshape
    refine ⟨rfl, readU16_4_hdrBuf _ _ _ _ hfit, slice6_hdrBuf _ _ _ _, ?_, ?_⟩
    · rcases hany : T.any isServiceName
      · rw [hany] at hf1
        simp at hf1
        exact absurd hf1 hs
      · rfl
    · rcases hany : T.any isAcName
      · rw [hany] at hf2
        simp at hf2
        exact absurd hf2 ha2
      · rfl
  · intro buffer pado esn ean T padr0 res hsn han hcp htag hloop hnosn
    unfold Header.create_padr_from_pado
    rw [hcp]
    simp only [htag, hloop]
    obtain ⟨_, hf1, _⟩ := padrLoop_spec esn ean T padr0 res false false hsn han hloop
    rw [hnosn] at hf1
    simp at hf1
    rw [if_pos hf1]
  · intro buffer pado esn ean T padr0 res hsn han hcp htag hloop hhassn hnoan
    unfold Header.create_padr_from_pado
    rw [hcp]
    simp only [htag, hloop]
    obtain ⟨_, hf1, hf2⟩ := padrLoop_spec esn ean T padr0 res false false hsn han hloop
    rw [hhassn] at hf1
    simp at hf1
    rw [hnoan] at hf2
    simp at hf2
    rw [if_neg (by simp [hf1]), if_pos hf2]
  · intro buffer pado sname ean T1 T2 m padr0 buf1 x1 x2 hcp htag hpre hne
    unfold Header.create_padr_from_pado
    rw [hcp]
    simp only [htag]
    rw [padrLoop_append (some sname) ean T1 (Tag.serviceName m :: T2) padr0 buf1
      false false x1 x2 hpre]
    have hbne : nameMismatch (some sname) m = true := by
      simp [nameMismatch, bne_iff_ne, hne]
    simp only [padrLoop, hbne]
    rfl
  · intro buffer pado esn aname T1 T2 m padr0 buf1 x1 x2 hcp htag hpre hne
    unfold Header.create_padr_from_pado
    rw [hcp]
    simp only [htag]
    rw [padrLoop_append esn (some aname) T1 (Tag.acName m :: T2) padr0 buf1
      false false x1 x2 hpre]
    have hbne : nameMismatch (some aname) m = true := by
      simp [nameMismatch, bne_iff_ne, hne]
    simp only [padrLoop, hbne]
    rfl

/-- Witness for C7 at the specification's S5 scenario (PADO with
Service-Name "svc", AC-Name "ac", AC-Cookie "ck", End-Of-List) plus one
concrete frame per error case. -/
theorem C7_create_padr_from_pado_witness :
    ((hdrBuf .padr 0 [1, 1, 0, 3, 115, 118, 99, 1, 4, 0, 2, 99, 107]
        (List.replicate 21 0)).take 4 = [0x11, 0x19, 0, 0] ∧
      readU16 (hdrBuf .padr 0 [1, 1, 0, 3, 115, 118, 99, 1, 4, 0, 2, 99, 107]
        (List.replicate 21 0)) 4 =
        (flatTags ([Tag.serviceName [115, 118, 99], Tag.acName [97, 99],
          Tag.acCookie [99, 107], Tag.endOfList].filter keepForPadr)).length ∧
      slice (hdrBuf .padr 0 [1, 1, 0, 3, 115, 118, 99, 1, 4, 0, 2, 99, 107]
          (List.replicate 21 0)) 6
          (6 + (flatTags ([Tag.serviceName [115, 118, 99], Tag.acName [97, 99],
            Tag.acCookie [99, 107], Tag.endOfList].filter keepForPadr)).length) =
        flatTags ([Tag.serviceName [115, 118, 99], Tag.acName [97, 99],
          Tag.acCookie [99, 107], Tag.endOfList].filter keepForPadr) ∧
      [Tag.serviceName [115, 118, 99], Tag.acName [97, 99], Tag.acCookie [99, 107],
        Tag.endOfList].any isServiceName = true ∧
      [Tag.serviceName [115, 118, 99], Tag.acName [97, 99], Tag.acCookie [99, 107],
        Tag.endOfList].any isAcName = true) ∧
    Header.create_padr_from_pado (List.replicate 40 0)
        [0x11, 0x07, 0, 0, 0, 6, 1, 2, 0, 2, 97, 99] none none =
      some (.error .MissingServiceName) ∧
    Header.create_padr_from_pado (List.replicate 40 0)
        [0x11, 0x07, 0, 0, 0, 4, 1, 1, 0, 0] none none =
      some (.error .MissingAcName) ∧
    Header.create_padr_from_pado (List.replicate 40 0)
        [0x11, 0x07, 0, 0, 0, 23, 1, 1, 0, 3, 115, 118, 99, 1, 2, 0, 2, 97, 99,
          1, 4, 0, 2, 99, 107, 0, 0, 0, 0] (some [120]) none =
      some (.error .ServiceNameMismatch) ∧
    Header.create_padr_from_pado (List.replicate 40 0)
        [0x11, 0x07, 0, 0, 0, 6, 1, 2, 0, 2, 97, 99] none (some [97]) =
      some (.error .AcNameMismatch) :=
  ⟨C7_create_padr_from_pado.1 (List.replicate 40 0)
      [0x11, 0x07, 0, 0, 0, 23, 1, 1, 0, 3, 115, 118, 99, 1, 2, 0, 2, 97, 99,
        1, 4, 0, 2, 99, 107, 0, 0, 0, 0]
      (hdrBuf .padr 0 [1, 1, 0, 3, 115, 118, 99, 1, 4, 0, 2, 99, 107]
        (List.replicate 21 0))
      (some [115, 118, 99]) (some [97, 99])
      [Tag.serviceName [115, 118, 99], Tag.acName [97, 99], Tag.acCookie [99, 107],
        Tag.endOfList]
      (by decide) (by decide) (by decide),
   C7_create_padr_from_pado.2.1 (List.replicate 40 0)
      [0x11, 0x07, 0, 0, 0, 6, 1, 2, 0, 2, 97, 99] none none [Tag.acName [97, 99]]
      (hdrBuf .padr 0 [] (List.replicate 34 0)) (hdrBuf .padr 0 [] (List.replicate 34 0))
      false true (by decide) (by decide) (by decide) (by decide),
   C7_create_padr_from_pado.2.2.1 (List.replicate 40 0)
      [0x11, 0x07, 0, 0, 0, 4, 1, 1, 0, 0] none none [Tag.serviceName []]
      (hdrBuf .padr 0 [] (List.replicate 34 0))
      (hdrBuf .padr 0 [1, 1, 0, 0] (List.replicate 30 0))
      true false (by decide) (by decide) (by decide) (by decide) (by decide),
   C7_create_padr_from_pado.2.2.2.1 (List.replicate 40 0)
      [0x11, 0x07, 0, 0, 0, 23, 1, 1, 0, 3, 115, 118, 99, 1, 2, 0, 2, 97, 99,
        1, 4, 0, 2, 99, 107, 0, 0, 0, 0]
      [120] none []
      [Tag.acName [97, 99], Tag.acCookie [99, 107], Tag.endOfList] [115, 118, 99]
      (hdrBuf .padr 0 [] (List.replicate 34 0)) (hdrBuf .padr 0 [] (List.replicate 34 0))
      false false (by decide) (by decide) (by decide) (by decide),
   C7_create_padr_from_pado.2.2.2.2 (List.replicate 40 0)
      [0x11, 0x07, 0, 0, 0, 6, 1, 2, 0, 2, 97, 99] none [97] [] [] [97, 99]
      (hdrBuf .padr 0 [] (List.replicate 34 0)) (hdrBuf .padr 0 [] (List.replicate 34 0))
      false false (by decide) (by decide) (by decide) (by decide)⟩

set_option maxRecDepth 40000 in
/-- C4: the TR-101 encode/decode round-trip FAILS in the code.  Building
`with_both_ids "circuit" "remote"` with `act_data_rate_up = 1000000`
succeeds and `write` encodes it into `tr101Wire`, but `try_from` on the
resulting Vendor-Specific tag does not recover the value: the sub-TLV
iterator starts at the vendor-id bytes instead of after them, so it reads
byte `0x00` as a first (unknown, empty) sub-tag and then bytes
`0x0D 0xE9` as a sub-tag of length 0xE9 + 2 = 235, which overruns the
remaining 115 bytes; decoding therefore reports
`Tr101LengthOutOfBound` instead of returning any `Tr101Information`. -/
theorem C4_tr101_roundtrip_fails :
    (Tr101Information.with_both_ids [99, 105, 114, 99, 117, 105, 116]
        [114, 101, 109, 111, 116, 101]).map
        (fun i => { i with act_data_rate_up := 1000000 }) = .ok tr101Example ∧
    tr101Example.write (List.replicate 117 0) = .ok (117, tr101Wire) ∧
    Tr101Information.try_from (.vendorSpecific tr101Wire) =
      some (.error (.Tr101LengthOutOfBound 0 235)) :=
  ⟨by decide, by decide, by decide⟩

end Pppoe
